import Mathlib

/-!
Verification of the text-measurement, truncation, layout-compression,
grid and audit logic of the `amplifier-stories` repository
(`tools/html2pptx.py` and `tools/pptx_verify.py`).

All Python `float` arithmetic is embedded as exact rational arithmetic
(`ℚ`); Python `int` EMU coordinates are embedded as `ℤ`; Python strings
are embedded as `List Char` (the texts in scope are ASCII).
-/

namespace AmpStories

/-- Python whitespace predicate (ASCII range), as used by `str.strip()`
and `str.split()`. -/
def isPySpace (c : Char) : Bool :=
  c = ' ' || c = '\t' || c = '\n' || c = '\r' || c = '\x0b' || c = '\x0c'

/-- Python `s.strip()`: drop leading and trailing whitespace. -/
def pyStrip (s : List Char) : List Char :=
  ((s.dropWhile isPySpace).reverse.dropWhile isPySpace).reverse

/-- Python `text.split("\n")`: split at every newline, keeping empty
pieces (the result is always non-empty). -/
def splitNL : List Char → List (List Char)
  | [] => [[]]
  | c :: rest =>
    if c = '\n' then [] :: splitNL rest
    else
      match splitNL rest with
      | [] => [[c]]
      | p :: ps => (c :: p) :: ps

/-- Accumulator worker for `splitWords`. -/
def splitWordsAux : List Char → List Char → List (List Char)
  | [], acc => if acc = [] then [] else [acc.reverse]
  | c :: rest, acc =>
    if isPySpace c then
      if acc = [] then splitWordsAux rest []
      else acc.reverse :: splitWordsAux rest []
    else splitWordsAux rest (c :: acc)

/-- Python `text.split()` (no separator): split on whitespace runs,
discarding empty pieces. -/
def splitWords (s : List Char) : List (List Char) :=
  splitWordsAux s []

/-- The `_ARIAL_REGULAR` per-character width table (fraction of em-size)
shared verbatim by `html2pptx.py` and `pptx_verify.py`; characters not in
the table fall back to `_ARIAL_REGULAR_DEFAULT = 0.56`. -/
def arialWidth : Char → ℚ
  | ' ' => 0.28
  | '!' => 0.28
  | '\x22' => 0.35
  | '#' => 0.56
  | '$' => 0.56
  | '%' => 0.89
  | '&' => 0.67
  | '\x27' => 0.19
  | '(' => 0.33
  | ')' => 0.33
  | '*' => 0.39
  | '+' => 0.58
  | ',' => 0.28
  | '-' => 0.33
  | '.' => 0.28
  | '/' => 0.28
  | '0' => 0.56
  | '1' => 0.56
  | '2' => 0.56
  | '3' => 0.56
  | '4' => 0.56
  | '5' => 0.56
  | '6' => 0.56
  | '7' => 0.56
  | '8' => 0.56
  | '9' => 0.56
  | ':' => 0.28
  | ';' => 0.28
  | '<' => 0.58
  | '=' => 0.58
  | '>' => 0.58
  | '?' => 0.56
  | '@' => 1.02
  | 'A' => 0.67
  | 'B' => 0.67
  | 'C' => 0.72
  | 'D' => 0.72
  | 'E' => 0.67
  | 'F' => 0.61
  | 'G' => 0.78
  | 'H' => 0.72
  | 'I' => 0.28
  | 'J' => 0.5
  | 'K' => 0.67
  | 'L' => 0.56
  | 'M' => 0.83
  | 'N' => 0.72
  | 'O' => 0.78
  | 'P' => 0.67
  | 'Q' => 0.78
  | 'R' => 0.72
  | 'S' => 0.67
  | 'T' => 0.61
  | 'U' => 0.72
  | 'V' => 0.67
  | 'W' => 0.94
  | 'X' => 0.67
  | 'Y' => 0.67
  | 'Z' => 0.61
  | '[' => 0.28
  | '\x5c' => 0.28
  | ']' => 0.28
  | '^' => 0.47
  | '_' => 0.56
  | '`' => 0.33
  | 'a' => 0.56
  | 'b' => 0.56
  | 'c' => 0.5
  | 'd' => 0.56
  | 'e' => 0.56
  | 'f' => 0.28
  | 'g' => 0.56
  | 'h' => 0.56
  | 'i' => 0.22
  | 'j' => 0.22
  | 'k' => 0.5
  | 'l' => 0.22
  | 'm' => 0.83
  | 'n' => 0.56
  | 'o' => 0.56
  | 'p' => 0.56
  | 'q' => 0.56
  | 'r' => 0.33
  | 's' => 0.5
  | 't' => 0.28
  | 'u' => 0.56
  | 'v' => 0.5
  | 'w' => 0.72
  | 'x' => 0.5
  | 'y' => 0.5
  | 'z' => 0.5
  | '\x7b' => 0.33
  | '|' => 0.26
  | '\x7d' => 0.33
  | '~' => 0.58
  | _ => 0.56

/-- Bold glyphs are about 8% wider (`_ARIAL_BOLD_SCALE`). -/
def ARIAL_BOLD_SCALE : ℚ := 1.08

/-- Monospace Consolas single width factor (`_CONSOLAS_FACTOR`). -/
def CONSOLAS_FACTOR : ℚ := 0.60

/-- Canvas constants of `html2pptx.py`. -/
def SLIDE_HEIGHT : ℚ := 5.625

/-- Content area left edge (inches). -/
def CONTENT_LEFT : ℚ := 0.8

/-- Content area width (inches). -/
def CONTENT_WIDTH : ℚ := 8.4

end AmpStories

namespace Html2pptx

open AmpStories

/-- Embeds `html2pptx._estimate_text_width_pt`: per-character Arial table
lookup, summed, scaled by font size, times the bold factor when bold. -/
def estimate_text_width_pt (text : List Char) (font_size_pt : ℚ) (bold : Bool) : ℚ :=
  let total := (text.map arialWidth).sum
  let width_pt := total * font_size_pt
  if bold then width_pt * ARIAL_BOLD_SCALE else width_pt

/-- Usable text width inside the frame as computed by
`html2pptx._estimate_text_height`: 0.1 inch margin on each side, floored
at an absolute minimum of 36pt. -/
def usable_width_pt (box_width_inches : ℚ) : ℚ :=
  let u := (box_width_inches - 0.20) * 72.0
  if u < 36 then 36.0 else u

/-- Line contribution of one paragraph in
`html2pptx._estimate_text_height`: an empty (whitespace-only) paragraph
counts 0.4 of a line; a paragraph that fits counts 1; otherwise
`max 2 ⌈rendered / usable * 1.05⌉`. -/
def paragraph_lines (font_size_pt usable : ℚ) (bold : Bool) (para : List Char) : ℚ :=
  let stripped := pyStrip para
  if stripped = [] then 0.4
  else
    let rendered_pt := estimate_text_width_pt stripped font_size_pt bold
    if rendered_pt ≤ usable then 1
    else ((max 2 ⌈rendered_pt / usable * 1.05⌉ : ℤ) : ℚ)

/-- Embeds `html2pptx._estimate_text_height`: sum the per-paragraph line
counts over the newline-split text, multiply by the line height, and add
the fixed 0.10 inch frame margin. -/
def estimate_text_height (text : List Char) (font_size_pt box_width_inches line_spacing : ℚ)
    (bold : Bool) : ℚ :=
  let usable := usable_width_pt box_width_inches
  let num_lines := ((splitNL text).map (paragraph_lines font_size_pt usable bold)).sum
  let line_height := font_size_pt / 72.0 * line_spacing
  num_lines * line_height + 0.10

/-- The binary search loop shared by both phases of
`html2pptx._truncate_to_fit`: `lo, hi` with `mid = (lo + hi + 1) / 2`,
moving `lo` up to `mid` when the candidate fits, else `hi` down to
`mid - 1`. -/
def bsearch (fits : ℕ → Bool) (lo hi : ℕ) : ℕ :=
  if h : lo < hi then
    let mid := (lo + hi + 1) / 2
    if fits mid then bsearch fits mid hi else bsearch fits lo (mid - 1)
  else lo
termination_by hi - lo
decreasing_by
  · have hm : lo < (lo + hi + 1) / 2 := by omega
    omega
  · have hm : (lo + hi + 1) / 2 ≤ hi := by omega
    omega

/-- Paragraph-prefix candidate used by `_truncate_to_fit`:
`"\n".join(paragraphs[:k]) + "\n..."`. -/
def paraCand (paragraphs : List (List Char)) (k : ℕ) : List Char :=
  List.intercalate ['\n'] (paragraphs.take k) ++ ('\n' :: ['.', '.', '.'])

/-- Word-prefix candidate used by `_truncate_to_fit`:
`" ".join(words[:k]) + "..."`. -/
def wordCand (words : List (List Char)) (k : ℕ) : List Char :=
  List.intercalate [' '] (words.take k) ++ ['.', '.', '.']

/-- Embeds `html2pptx._truncate_to_fit`: return the text unchanged when it
already fits, otherwise binary-search the longest fitting
paragraph-prefix, and failing that the longest fitting word-prefix,
always retaining at least one word. -/
def truncate_to_fit (text : List Char) (font_size_pt box_width_inches max_height_inches : ℚ)
    (bold : Bool) : List Char :=
  if estimate_text_height text font_size_pt box_width_inches 1.2 bold ≤ max_height_inches then
    text
  else
    let paragraphs := splitNL text
    let fitsPara : ℕ → Bool := fun k =>
      decide (estimate_text_height (paraCand paragraphs k) font_size_pt box_width_inches 1.2 bold
        ≤ max_height_inches)
    let lo := bsearch fitsPara 0 paragraphs.length
    if 0 < lo then paraCand paragraphs lo
    else
      let words := splitWords text
      let fitsWord : ℕ → Bool := fun k =>
        decide (estimate_text_height (wordCand words k) font_size_pt box_width_inches 1.2 bold
          ≤ max_height_inches)
      let lo2 := bsearch fitsWord 0 words.length
      wordCand words (max lo2 1)

end Html2pptx

namespace PptxVerify

open AmpStories

/-- EMU per inch. -/
def EMU_PER_INCH : ℚ := 914400

/-- Default text-frame top margin in EMU (0.05 inch). -/
def DEFAULT_MARGIN_TOP : ℤ := 45720

/-- Default text-frame bottom margin in EMU (0.05 inch). -/
def DEFAULT_MARGIN_BOTTOM : ℤ := 45720

/-- Default text-frame left margin in EMU (0.1 inch). -/
def DEFAULT_MARGIN_LEFT : ℤ := 91440

/-- Default text-frame right margin in EMU (0.1 inch). -/
def DEFAULT_MARGIN_RIGHT : ℤ := 91440

/-- PowerPoint line height multiplier. -/
def LINE_HEIGHT_FACTOR : ℚ := 1.2

/-- Lower-cased font name, for the monospace test. -/
def lowerName (s : List Char) : List Char := s.map Char.toLower

/-- Test `font_name.lower() in ("consolas", "courier new", "courier")`. -/
def isMonospaceName (font_name : List Char) : Bool :=
  lowerName font_name = "consolas".toList
    || lowerName font_name = "courier new".toList
    || lowerName font_name = "courier".toList

/-- Embeds `pptx_verify._estimate_text_width_pt`: empty text has width 0;
monospace fonts use a fixed per-character factor; otherwise per-character
Arial table lookup with the bold scale. -/
def estimate_text_width_pt (text : List Char) (font_size_pt : ℚ) (bold : Bool)
    (font_name : List Char) : ℚ :=
  if text = [] then 0.0
  else if isMonospaceName font_name then
    (text.length : ℚ) * CONSOLAS_FACTOR * font_size_pt
  else
    let total_em := (text.map arialWidth).sum
    let width_pt := total_em * font_size_pt
    if bold then width_pt * ARIAL_BOLD_SCALE else width_pt

/-- Per-paragraph line count inside `pptx_verify.estimate_text_height`:
0.4 for a whitespace-only paragraph, 1 when the rendered width fits,
otherwise `⌈rendered / available * 1.05⌉` (no lower clamp at 2 here). -/
def para_total_lines (available_width_pt font_size_pt : ℚ) (is_bold : Bool)
    (font_name : List Char) (para : List Char) : ℚ :=
  let stripped := pyStrip para
  if stripped = [] then 0.4
  else
    let rendered := estimate_text_width_pt stripped font_size_pt is_bold font_name
    if rendered ≤ available_width_pt then 1
    else (⌈rendered / available_width_pt * 1.05⌉ : ℚ)

/-- Embeds the standalone `pptx_verify.estimate_text_height`: returns
`(0.0, 0)` for whitespace-only text, otherwise the summed wrapped line
count times the line height, with the total line count ceiled to an
integer. -/
def estimate_text_height (text : List Char) (available_width_in font_size_pt : ℚ)
    (font_name : List Char) (is_bold : Bool) (line_spacing : ℚ) : ℚ × ℤ :=
  if pyStrip text = [] then (0.0, 0)
  else
    let available_width_pt := available_width_in * 72.0
    let total_lines :=
      ((splitNL text).map
        (para_total_lines available_width_pt font_size_pt is_bold font_name)).sum
    let line_height_inches := font_size_pt / 72.0 * line_spacing
    (total_lines * line_height_inches, ⌈total_lines⌉)

/-- One paragraph of a text frame, with the font properties that
`_get_para_font_info` and `_get_line_spacing` resolve for it (first-run
font size / bold / name, defaulting to 14pt regular Arial, and the
effective line spacing, defaulting to `LINE_HEIGHT_FACTOR`).  The
paragraph text contains no newline. -/
structure VPara where
  text : List Char
  font_size_pt : ℚ
  is_bold : Bool
  font_name : List Char
  line_spacing : ℚ

/-- A pptx shape as seen by the verifier: EMU integer geometry, a text
frame given by its paragraphs, optional explicit margins (EMU) and the
tri-state word-wrap flag. -/
structure VShape where
  left : ℤ
  top : ℤ
  width : ℤ
  height : ℤ
  has_text_frame : Bool
  paras : List VPara
  margin_top : Option ℤ
  margin_bottom : Option ℤ
  margin_left : Option ℤ
  margin_right : Option ℤ
  word_wrap : Option Bool

/-- The pptx `text_frame.text`: paragraph texts joined with newlines. -/
def tfText (s : VShape) : List Char :=
  List.intercalate ['\n'] (s.paras.map VPara.text)

/-- The shape's visible text: empty when it has no text frame. -/
def shapeText (s : VShape) : List Char :=
  if s.has_text_frame then tfText s else []

/-- Height contributed by one paragraph in
`pptx_verify._estimate_shape_text_height`. -/
def vparaHeight (available_width_in : ℚ) (p : VPara) : ℚ :=
  let line_h := p.font_size_pt / 72.0 * p.line_spacing
  let para_text := pyStrip p.text
  if para_text = [] then 0.4 * line_h
  else
    let available_width_pt := available_width_in * 72.0
    let rendered := estimate_text_width_pt para_text p.font_size_pt p.is_bold p.font_name
    let para_lines : ℤ :=
      if rendered ≤ available_width_pt then 1
      else ⌈rendered / available_width_pt * 1.05⌉
    (para_lines : ℚ) * line_h

/-- Line count contributed by one paragraph in
`pptx_verify._estimate_shape_text_height` (empty paragraphs add none). -/
def vparaLineCount (available_width_in : ℚ) (p : VPara) : ℤ :=
  let para_text := pyStrip p.text
  if para_text = [] then 0
  else
    let available_width_pt := available_width_in * 72.0
    let rendered := estimate_text_width_pt para_text p.font_size_pt p.is_bold p.font_name
    if rendered ≤ available_width_pt then 1
    else ⌈rendered / available_width_pt * 1.05⌉

/-- Result record of `_estimate_shape_text_height`. -/
structure ShapeEstimate where
  total_height : ℚ
  total_lines : ℤ
  dominant_size : ℚ
  dominant_bold : Bool
  dominant_name : List Char

/-- Dominant-font accumulator: keep the paragraph with the strictly
largest font size seen so far. -/
def dominantFold (acc : ℚ × Bool × List Char) (p : VPara) : ℚ × Bool × List Char :=
  if acc.1 < p.font_size_pt then (p.font_size_pt, p.is_bold, p.font_name) else acc

/-- Embeds `pptx_verify._estimate_shape_text_height`: per-paragraph
heights and line counts summed over all paragraphs, plus the dominant
(largest) font, defaulting to 14pt when no paragraph set one. -/
def estimate_shape_text_height (paras : List VPara) (available_width_in : ℚ) :
    ShapeEstimate :=
  let total_height := (paras.map (vparaHeight available_width_in)).sum
  let total_lines := (paras.map (vparaLineCount available_width_in)).sum
  let dom := paras.foldl dominantFold (0, false, "Arial".toList)
  let dominant_size := if dom.1 = 0 then 14.0 else dom.1
  ⟨total_height, total_lines, dominant_size, dom.2.1, dom.2.2⟩

/-- The fields of a reported `TextOverflow` that the verification logic
derives (text previews and slide bookkeeping omitted). -/
structure TextOverflow where
  font_size_pt : ℚ
  is_bold : Bool
  font_name : List Char
  available_height : ℚ
  needed_height : ℚ
  overflow_inches : ℚ
  estimated_lines : ℤ

/-- Available text width of a shape (inches): width minus left and right
text-frame margins (explicit or default). -/
def availW (s : VShape) : ℚ :=
  (s.width : ℚ) / EMU_PER_INCH
    - ((s.margin_left.getD DEFAULT_MARGIN_LEFT : ℤ) : ℚ) / EMU_PER_INCH
    - ((s.margin_right.getD DEFAULT_MARGIN_RIGHT : ℤ) : ℚ) / EMU_PER_INCH

/-- Available text height of a shape (inches): height minus top and
bottom text-frame margins (explicit or default). -/
def availH (s : VShape) : ℚ :=
  (s.height : ℚ) / EMU_PER_INCH
    - ((s.margin_top.getD DEFAULT_MARGIN_TOP : ℤ) : ℚ) / EMU_PER_INCH
    - ((s.margin_bottom.getD DEFAULT_MARGIN_BOTTOM : ℤ) : ℚ) / EMU_PER_INCH

/-- The `needed_h` that `verify_shape` computes: multi-paragraph estimate
when word wrap is on (or unset); explicit-newline count times the
dominant-font line height when word wrap is off. -/
def neededH (s : VShape) : ℚ :=
  let est := estimate_shape_text_height s.paras (availW s)
  if s.word_wrap = some false then
    ((max 1 (splitNL (tfText s)).length : ℕ) : ℚ)
      * (est.dominant_size / 72.0 * LINE_HEIGHT_FACTOR)
  else est.total_height

/-- The `num_lines` that `verify_shape` reports. -/
def reportedLines (s : VShape) : ℤ :=
  if s.word_wrap = some false then ((max 1 (splitNL (tfText s)).length : ℕ) : ℤ)
  else (estimate_shape_text_height s.paras (availW s)).total_lines

/-- Embeds `pptx_verify.verify_shape`: skip shapes without a text frame,
with whitespace-only text, or with degenerate available area; otherwise
flag an overflow exactly when `needed - available` exceeds both
`0.15 * available` and `0.05` inches. -/
def verify_shape (s : VShape) : Option TextOverflow :=
  if ¬ s.has_text_frame then none
  else if pyStrip (tfText s) = [] then none
  else
    let avail_w := availW s
    let avail_h := availH s
    if avail_w ≤ 0 ∨ avail_h ≤ 0 then none
    else
      let est := estimate_shape_text_height s.paras avail_w
      let needed_h := neededH s
      let overflow := needed_h - avail_h
      if avail_h * 0.15 < overflow ∧ 0.05 < overflow then
        some ⟨est.dominant_size, est.dominant_bold, est.dominant_name,
              avail_h, needed_h, overflow, reportedLines s⟩
      else none

/-- Overlap severity tiers. -/
inductive Severity
  | minor
  | moderate
  | severe
deriving DecidableEq, Repr

/-- The fields of a reported `ShapeOverlap` that the detection logic
derives (text previews and slide bookkeeping omitted). -/
structure ShapeOverlap where
  shape_a_index : ℕ
  shape_b_index : ℕ
  overlap_width : ℚ
  overlap_height : ℚ
  severity : Severity
deriving DecidableEq, Repr

/-- Severity classification of `detect_overlaps` by the minimum
intersecting dimension. -/
def classifySeverity (min_dim : ℚ) : Severity :=
  if 0.50 < min_dim then .severe
  else if 0.20 < min_dim then .moderate
  else .minor

/-- Bounding-box left edge in inches (`_shape_bbox`). -/
def bboxLeft (s : VShape) : ℚ := (s.left : ℚ) / EMU_PER_INCH

/-- Bounding-box top edge in inches (`_shape_bbox`). -/
def bboxTop (s : VShape) : ℚ := (s.top : ℚ) / EMU_PER_INCH

/-- Bounding-box right edge in inches (`_shape_bbox`). -/
def bboxRight (s : VShape) : ℚ := bboxLeft s + (s.width : ℚ) / EMU_PER_INCH

/-- Bounding-box bottom edge in inches (`_shape_bbox`). -/
def bboxBot (s : VShape) : ℚ := bboxTop s + (s.height : ℚ) / EMU_PER_INCH

/-- Width of the bounding-box intersection of two shapes
(`inter_right - inter_left`). -/
def interW (a b : VShape) : ℚ := min (bboxRight a) (bboxRight b) - max (bboxLeft a) (bboxLeft b)

/-- Height of the bounding-box intersection of two shapes
(`inter_bottom - inter_top`). -/
def interH (a b : VShape) : ℚ := min (bboxBot a) (bboxBot b) - max (bboxTop a) (bboxTop b)

/-- The body of the inner loop of `pptx_verify.detect_overlaps` for one
ordered pair of shapes: skip unless both carry visible text, the
bounding boxes intersect with positive width and height, and the
minimum intersecting dimension is at least 0.10 inch. -/
def checkPair (a_idx : ℕ) (a : VShape) (b_idx : ℕ) (b : VShape) : Option ShapeOverlap :=
  let a_text := pyStrip (shapeText a)
  let b_text := pyStrip (shapeText b)
  if a_text = [] ∨ b_text = [] then none
  else
    let overlap_w := interW a b
    let overlap_h := interH a b
    if overlap_w ≤ 0 ∨ overlap_h ≤ 0 then none
    else
      let min_dim := min overlap_w overlap_h
      if min_dim < 0.10 then none
      else some ⟨a_idx, b_idx, overlap_w, overlap_h, classifySeverity min_dim⟩

/-- Embeds `pptx_verify.detect_overlaps`: check every ordered index pair
`ai < bi` of shapes on the slide. -/
def detect_overlaps (shapes : List VShape) : List ShapeOverlap :=
  shapes.enum.flatMap fun a =>
    shapes.enum.filterMap fun b =>
      if a.1 < b.1 then checkPair a.1 a.2 b.1 b.2 else none

end PptxVerify

namespace Html2pptx

open AmpStories

/-- Python `int()` applied to a rational: truncation toward zero. -/
def pyInt (q : ℚ) : ℤ := if 0 ≤ q then ⌊q⌋ else ⌈q⌉

/-- A placed shape as mutated by the overflow-compression pass: EMU
integer geometry (only `top` is ever written). -/
structure PShape where
  left : ℤ
  top : ℤ
  width : ℤ
  height : ℤ
deriving DecidableEq, Repr

/-- Shape top in inches. -/
def shapeTopIn (s : PShape) : ℚ := (s.top : ℚ) / 914400

/-- Shape bottom in inches. -/
def shapeBotIn (s : PShape) : ℚ := ((s.top + s.height : ℤ) : ℚ) / 914400

/-- The `shape_tops` list of the compression pass: tops (inches) of the
shapes at or below the 0.3 inch background threshold. -/
def contentTops (shapes : List PShape) : List ℚ :=
  (shapes.filter fun s => 0.3 ≤ shapeTopIn s).map shapeTopIn

/-- The `shape_bots` list of the compression pass. -/
def contentBots (shapes : List PShape) : List ℚ :=
  (shapes.filter fun s => 0.3 ≤ shapeTopIn s).map shapeBotIn

/-- Python `min(list)` (None on an empty list). -/
def listMin? : List ℚ → Option ℚ
  | [] => none
  | x :: xs => some (xs.foldl min x)

/-- Python `max(list)` (None on an empty list). -/
def listMax? : List ℚ → Option ℚ
  | [] => none
  | x :: xs => some (xs.foldl max x)

/-- One shape update of the compression pass: shapes whose top is at or
past `content_start` get `top := int((content_start + rel_top * scale)
* 914400)`; shapes above `content_start` are untouched. -/
def moveShape (content_start sc : ℚ) (s : PShape) : PShape :=
  if content_start ≤ shapeTopIn s then
    { s with top := pyInt ((content_start + (shapeTopIn s - content_start) * sc) * 914400) }
  else s

/-- Embeds the overflow-compression tail of
`HTMLToPPTXConverter.process_slide`: when the cursor or any shape bottom
passes the slide height, compute the content bounds over non-background
shapes and apply a position-only proportional compression, clamped at a
0.40 scale floor. -/
def compressSlide (current_top : ℚ) (shapes : List PShape) : List PShape :=
  let actual_bottom := shapes.foldl (fun m s => max m (shapeBotIn s)) current_top
  if SLIDE_HEIGHT < actual_bottom then
    let usable := SLIDE_HEIGHT - 0.10
    match listMin? (contentTops shapes), listMax? (contentBots shapes) with
    | some content_start, some content_end =>
      let content_height := content_end - content_start
      if 0 < content_height then
        let scale := (usable - content_start) / content_height
        if 0.40 < scale ∧ scale < 1.0 then shapes.map (moveShape content_start scale)
        else if scale ≤ 0.40 then shapes.map (moveShape content_start 0.40)
        else shapes
      else shapes
    | _, _ => shapes
  else shapes

/-- The column-hint classes that `_add_cards` recognises on the grid
container (first matching clause of its if-chain; `plain` when none
matches). -/
inductive CardClass
  | grid5
  | fifths
  | grid4
  | fourths
  | grid3
  | thirds
  | grid2
  | halves
  | plain
deriving DecidableEq, Repr

/-- The `forced_cols` value `_add_cards` derives from the container
class: an explicit `grid-5`/`fifths` hint is pre-capped to 3 columns,
`halves` auto-fits up to 3 columns. -/
def forcedCols (cls : CardClass) (num_cards : ℕ) : Option ℕ :=
  match cls with
  | .grid5 => some 3
  | .fifths => some 3
  | .grid4 => some 4
  | .fourths => some 4
  | .grid3 => some 3
  | .thirds => some 3
  | .grid2 => some 2
  | .halves => some (min num_cards 3)
  | .plain => none

/-- The starting column count `cols = forced_cols or min(num_cards, 4)`
(Python `or`: a zero `forced_cols` also falls through). -/
def startCols (num_cards : ℕ) (cls : CardClass) : ℕ :=
  match forcedCols cls num_cards with
  | some k => if k = 0 then min num_cards 4 else k
  | none => min num_cards 4

/-- The card width implied by a column count:
`(CONTENT_WIDTH - gap * (cols - 1)) / cols` with a 0.2 inch gap. -/
def cardWidth (cols : ℕ) : ℚ :=
  (CONTENT_WIDTH - 0.2 * ((cols : ℚ) - 1)) / (cols : ℚ)

/-- The `while cols > 1 and (CONTENT_WIDTH - gap*(cols-1))/cols < 2.5:
cols -= 1` loop of `_add_cards`. -/
def shrinkCols : ℕ → ℕ
  | 0 => 0
  | 1 => 1
  | n + 2 => if cardWidth (n + 2) < 2.5 then shrinkCols (n + 1) else n + 2

/-- The column count finally chosen by `_add_cards`. -/
def resolveCols (num_cards : ℕ) (cls : CardClass) : ℕ :=
  shrinkCols (startCols num_cards cls)

/-- The row count `num_rows = -(-num_cards // cols)` (ceil division). -/
def numRows (num_cards cols : ℕ) : ℕ := (num_cards + cols - 1) / cols

end Html2pptx


namespace AmpStories

set_option maxHeartbeats 1600000 in
lemma arialWidth_pos (c : Char) : 0 < arialWidth c := by
  unfold arialWidth
  split <;> norm_num

lemma arialSum_nonneg (s : List Char) : 0 ≤ (s.map arialWidth).sum := by
  induction s with
  | nil => simp
  | cons c s ih =>
    simp only [List.map_cons, List.sum_cons]
    have := arialWidth_pos c
    linarith

lemma arialSum_append (s t : List Char) :
    ((s ++ t).map arialWidth).sum = (s.map arialWidth).sum + (t.map arialWidth).sum := by
  simp

lemma pyStrip_of_all_space {s : List Char} (h : ∀ c ∈ s, isPySpace c) :
    pyStrip s = [] := by
  have h1 : s.dropWhile isPySpace = [] := by
    rw [List.dropWhile_eq_nil_iff]
    intro c hc
    exact h c hc
  simp [pyStrip, h1]

lemma splitNL_ne_nil (t : List Char) : splitNL t ≠ [] := by
  cases t with
  | nil => simp [splitNL]
  | cons c rest =>
    simp only [splitNL]
    split
    · simp
    · split <;> simp

lemma splitNL_no_newline {t : List Char} (h : '\n' ∉ t) : splitNL t = [t] := by
  induction t with
  | nil => rfl
  | cons c rest ih =>
    have hc : ¬ c = '\n' := fun hc => h (hc ▸ List.mem_cons_self c rest)
    have hr : '\n' ∉ rest := fun hr => h (List.mem_cons_of_mem c hr)
    simp only [splitNL, if_neg hc, ih hr]

lemma two_le_cast_max (z : ℤ) : (2 : ℚ) ≤ ((max 2 z : ℤ) : ℚ) := by
  exact_mod_cast le_max_left (2 : ℤ) z

end AmpStories

namespace Html2pptx

open AmpStories

lemma paragraph_lines_nonneg (fs usable : ℚ) (bold : Bool) (para : List Char) :
    0 ≤ paragraph_lines fs usable bold para := by
  simp only [paragraph_lines]
  split
  · norm_num
  · split
    · norm_num
    · have := two_le_cast_max ⌈estimate_text_width_pt (pyStrip para) fs bold / usable * 1.05⌉
      linarith

lemma num_lines_nonneg (text : List Char) (fs usable : ℚ) (bold : Bool) :
    0 ≤ ((splitNL text).map (paragraph_lines fs usable bold)).sum := by
  induction splitNL text with
  | nil => simp
  | cons p ps ih =>
    simp only [List.map_cons, List.sum_cons]
    have := paragraph_lines_nonneg fs usable bold p
    linarith

lemma usable_width_pt_ge (w : ℚ) : 36 ≤ usable_width_pt w := by
  simp only [usable_width_pt]
  split
  · norm_num
  · linarith [not_lt.mp (by assumption : ¬ (w - 0.20) * 72.0 < 36)]

end Html2pptx

open AmpStories

/-- C9: width estimation is a monoid homomorphism.  For fixed font size
and bold flag (and, in the verifier, font name), both the converter's and
the verifier's `_estimate_text_width_pt` map string concatenation to
addition and the empty string to width 0. -/
theorem width_is_monoid_hom :
    (∀ (s t : List Char) (fs : ℚ) (bold : Bool),
      Html2pptx.estimate_text_width_pt (s ++ t) fs bold
        = Html2pptx.estimate_text_width_pt s fs bold
          + Html2pptx.estimate_text_width_pt t fs bold)
    ∧ (∀ (fs : ℚ) (bold : Bool), Html2pptx.estimate_text_width_pt [] fs bold = 0)
    ∧ (∀ (s t : List Char) (fs : ℚ) (bold : Bool) (name : List Char),
      PptxVerify.estimate_text_width_pt (s ++ t) fs bold name
        = PptxVerify.estimate_text_width_pt s fs bold name
          + PptxVerify.estimate_text_width_pt t fs bold name)
    ∧ (∀ (fs : ℚ) (bold : Bool) (name : List Char),
      PptxVerify.estimate_text_width_pt [] fs bold name = 0) := by
  refine ⟨?_, ?_, ?_, ?_⟩
  · intro s t fs bold
    simp only [Html2pptx.estimate_text_width_pt, AmpStories.arialSum_append]
    cases bold <;> simp <;> ring
  · intro fs bold
    simp only [Html2pptx.estimate_text_width_pt]
    cases bold <;> simp
  · intro s t fs bold name
    rcases eq_or_ne s [] with rfl | hs
    · norm_num [PptxVerify.estimate_text_width_pt]
    rcases eq_or_ne t [] with rfl | ht
    · norm_num [PptxVerify.estimate_text_width_pt]
    have hst : s ++ t ≠ [] := fun h => hs (List.append_eq_nil.mp h).1
    simp only [PptxVerify.estimate_text_width_pt, if_neg hst, if_neg hs, if_neg ht]
    by_cases hm : PptxVerify.isMonospaceName name = true
    · simp only [hm, if_true]
      push_cast [List.length_append]
      ring
    · rw [Bool.not_eq_true] at hm
      simp only [hm, Bool.false_eq_true, if_false, AmpStories.arialSum_append]
      cases bold <;> simp <;> ring
  · intro fs bold name
    norm_num [PptxVerify.estimate_text_width_pt]

/-- C10: the converter's `_estimate_text_height` on empty or
whitespace-only single-paragraph text is exactly
`0.4 * (fs/72 * 1.2) + 0.10` inches; its result is at least `0.10`
inches on every input; the verifier's standalone `estimate_text_height`
instead returns `(0.0, 0)` on whitespace-only text. -/
theorem empty_text_height (fs w : ℚ) (bold : Bool) (t : List Char)
    (hfs : 0 < fs)
    (ht : ∀ c ∈ t, isPySpace c ∧ c ≠ '\n') :
    Html2pptx.estimate_text_height t fs w 1.2 bold = 0.4 * (fs / 72 * 1.2) + 0.10
    ∧ (∀ u : List Char, 0.10 ≤ Html2pptx.estimate_text_height u fs w 1.2 bold)
    ∧ (∀ (u : List Char) (aw fs' ls : ℚ) (name : List Char) (b : Bool),
        (∀ c ∈ u, isPySpace c) →
        PptxVerify.estimate_text_height u aw fs' name b ls = (0.0, 0)) := by
  refine ⟨?_, ?_, ?_⟩
  · have hnl : '\n' ∉ t := fun hmem => (ht '\n' hmem).2 rfl
    have hsp : pyStrip t = [] := pyStrip_of_all_space (fun c hc => (ht c hc).1)
    simp only [Html2pptx.estimate_text_height, splitNL_no_newline hnl,
      List.map_cons, List.map_nil, List.sum_cons, List.sum_nil,
      Html2pptx.paragraph_lines, hsp]
    norm_num
  · intro u
    simp only [Html2pptx.estimate_text_height]
    have h1 := Html2pptx.num_lines_nonneg u fs (Html2pptx.usable_width_pt w) bold
    have h2 : (0 : ℚ) ≤ fs / 72.0 * 1.2 := by positivity
    have := mul_nonneg h1 h2
    linarith
  · intro u aw fs' ls name b hu
    simp only [PptxVerify.estimate_text_height, pyStrip_of_all_space hu, if_pos]

/-- Witness for `empty_text_height` at a concrete whitespace input. -/
theorem empty_text_height_witness :
    (0 : ℚ) < 20
    ∧ (∀ c ∈ [' '], AmpStories.isPySpace c ∧ c ≠ '\n')
    ∧ Html2pptx.estimate_text_height [' '] 20 2 1.2 false
        = 0.4 * ((20 : ℚ) / 72 * 1.2) + 0.10 :=
  ⟨by norm_num, by decide, (empty_text_height 20 2 false [' '] (by norm_num) (by decide)).1⟩

/-- C5: the wrap scenario.  Twenty repeated W characters at 20pt,
non-bold, in a 2.0 inch box: usable width `(2.0 - 0.20) * 72 = 129.6`pt,
rendered width `20 * 0.94 * 20 = 376`pt, `wrap_lines = 376/129.6 * 1.05`,
`max 2 ⌈wrap_lines⌉ = 4` lines, and the predicted height is
`4 * (20/72 * 1.2) + 0.10` inches. -/
theorem wrap_scenario :
    Html2pptx.usable_width_pt 2.0 = 129.6
    ∧ Html2pptx.estimate_text_width_pt (List.replicate 20 'W') 20 false = 376
    ∧ Html2pptx.paragraph_lines 20 (Html2pptx.usable_width_pt 2.0) false
        (List.replicate 20 'W') = 4
    ∧ Html2pptx.estimate_text_height (List.replicate 20 'W') 20 2.0 1.2 false
        = 4 * ((20 : ℚ) / 72 * 1.2) + 0.10 := by
  have husable : Html2pptx.usable_width_pt 2.0 = 129.6 := by
    simp only [Html2pptx.usable_width_pt]
    norm_num
  have hW : AmpStories.arialWidth 'W' = 0.94 := rfl
  have hmap : (List.replicate 20 'W').map AmpStories.arialWidth
      = List.replicate 20 (0.94 : ℚ) := by
    rw [List.map_replicate, hW]
  have hsum : ((List.replicate 20 'W').map AmpStories.arialWidth).sum = (18.8 : ℚ) := by
    rw [hmap, List.sum_replicate]
    norm_num
  have hwidth : Html2pptx.estimate_text_width_pt (List.replicate 20 'W') 20 false = 376 := by
    simp only [Html2pptx.estimate_text_width_pt, hsum]
    norm_num
  have hstrip : AmpStories.pyStrip (List.replicate 20 'W') = List.replicate 20 'W' := rfl
  have hceil : (⌈(376 : ℚ) / 129.6 * 1.05⌉ : ℤ) = 4 := by
    rw [Int.ceil_eq_iff]
    constructor <;> norm_num
  have hlines : Html2pptx.paragraph_lines 20 (Html2pptx.usable_width_pt 2.0) false
      (List.replicate 20 'W') = 4 := by
    simp only [Html2pptx.paragraph_lines, hstrip, husable, hwidth]
    rw [if_neg (by simp), if_neg (by norm_num), hceil]
    norm_num
  refine ⟨husable, hwidth, hlines, ?_⟩
  have hsplit : AmpStories.splitNL (List.replicate 20 'W') = [List.replicate 20 'W'] := by
    refine AmpStories.splitNL_no_newline ?_
    intro h
    have := List.eq_of_mem_replicate h
    simp at this
  simp only [Html2pptx.estimate_text_height, hsplit, List.map_cons, List.map_nil,
    List.sum_cons, List.sum_nil, hlines]
  norm_num

namespace Html2pptx

lemma shrinkCols_spec : ∀ m : ℕ,
    shrinkCols (m + 1) = 1 ∨ 2.5 ≤ cardWidth (shrinkCols (m + 1)) := by
  intro m
  induction m with
  | zero => left; rfl
  | succ k ih =>
    show shrinkCols (k + 2) = 1 ∨ _
    rw [shrinkCols]
    split
    · exact ih
    · right
      exact le_of_not_lt (by assumption)

lemma startCols_pos (n : ℕ) (cls : CardClass) (hn : 1 ≤ n) : 1 ≤ startCols n cls := by
  cases cls <;> simp [startCols, forcedCols] <;>
    first
    | omega
    | (split_ifs <;> omega)

end Html2pptx

/-- C8: the column count and card width finally chosen by `_add_cards`
satisfy `2.5 ≤ card_width` or `columns = 1`, where
`card_width = (CONTENT_WIDTH - 0.2 * (columns - 1)) / columns`, the count
being obtained by decrementing from the starting count while the implied
width is below 2.5 inches, with floor 1; in particular 5 cards with a
5-column hint resolve to 3 columns of width `8/3 ≈ 2.67` inches in 2
rows. -/
theorem column_floor (n : ℕ) (cls : Html2pptx.CardClass) (hn : 1 ≤ n) :
    (Html2pptx.resolveCols n cls = 1
      ∨ 2.5 ≤ Html2pptx.cardWidth (Html2pptx.resolveCols n cls))
    ∧ Html2pptx.resolveCols 5 .grid5 = 3
    ∧ Html2pptx.cardWidth 3 = 8 / 3
    ∧ Html2pptx.numRows 5 3 = 2 := by
  refine ⟨?_, ?_, ?_, ?_⟩
  · have h1 := Html2pptx.startCols_pos n cls hn
    obtain ⟨m, hm⟩ : ∃ m, Html2pptx.startCols n cls = m + 1 :=
      ⟨Html2pptx.startCols n cls - 1, by omega⟩
    rw [Html2pptx.resolveCols, hm]
    exact Html2pptx.shrinkCols_spec m
  · have hcw : ¬ Html2pptx.cardWidth 3 < 2.5 := by
      simp only [Html2pptx.cardWidth, AmpStories.CONTENT_WIDTH]
      norm_num
    show Html2pptx.shrinkCols (1 + 2) = 3
    rw [Html2pptx.shrinkCols, if_neg hcw]
  · simp only [Html2pptx.cardWidth, AmpStories.CONTENT_WIDTH]
    norm_num
  · rfl

/-- Witness for `column_floor` at the grid scenario input. -/
theorem column_floor_witness :
    1 ≤ 5
    ∧ (Html2pptx.resolveCols 5 .grid5 = 1
        ∨ 2.5 ≤ Html2pptx.cardWidth (Html2pptx.resolveCols 5 .grid5)) :=
  ⟨by norm_num, (column_floor 5 .grid5 (by norm_num)).1⟩

/-- C7: for a shape with a text frame, non-whitespace text and positive
available width and height, `verify_shape` flags an overflow exactly when
`needed_height - available_height` exceeds
`max (0.15 * available_height) 0.05` inches. -/
theorem overflow_flag (s : PptxVerify.VShape)
    (htf : s.has_text_frame = true)
    (ht : pyStrip (PptxVerify.tfText s) ≠ [])
    (hw : 0 < PptxVerify.availW s)
    (hh : 0 < PptxVerify.availH s) :
    (PptxVerify.verify_shape s).isSome = true
      ↔ max (0.15 * PptxVerify.availH s) 0.05
          < PptxVerify.neededH s - PptxVerify.availH s := by
  have h3 : ¬ (PptxVerify.availW s ≤ 0 ∨ PptxVerify.availH s ≤ 0) := by
    push_neg
    exact ⟨hw, hh⟩
  simp only [PptxVerify.verify_shape, htf, ht, h3, not_true, if_false,
    if_neg h3, ite_not, if_true, ite_false, ite_true]
  rw [max_lt_iff]
  split_ifs with hc
  · simp only [Option.isSome_some, true_iff]
    exact ⟨by linarith [hc.1], hc.2⟩
  · simp only [Option.isSome_none, Bool.false_eq_true, false_iff, not_and]
    intro h1 h2
    exact hc ⟨by linarith, h2⟩

/-- A concrete overflowing shape for the `overflow_flag` witness: a
1.0 by 0.2 inch default-margin box holding twenty W characters at 20pt. -/
def exShapeC7 : PptxVerify.VShape :=
  { left := 0, top := 0, width := 914400, height := 182880
    has_text_frame := true
    paras := [⟨List.replicate 20 'W', 20, false, "Arial".toList, 1.2⟩]
    margin_top := none, margin_bottom := none
    margin_left := none, margin_right := none
    word_wrap := some true }

/-- Witness for `overflow_flag` at a concrete shape. -/
theorem overflow_flag_witness :
    (exShapeC7.has_text_frame = true
      ∧ pyStrip (PptxVerify.tfText exShapeC7) ≠ []
      ∧ 0 < PptxVerify.availW exShapeC7
      ∧ 0 < PptxVerify.availH exShapeC7)
    ∧ ((PptxVerify.verify_shape exShapeC7).isSome = true
        ↔ max (0.15 * PptxVerify.availH exShapeC7) 0.05
            < PptxVerify.neededH exShapeC7 - PptxVerify.availH exShapeC7) := by
  have h2 : pyStrip (PptxVerify.tfText exShapeC7) ≠ [] := by decide
  have h3 : 0 < PptxVerify.availW exShapeC7 := by
    norm_num [PptxVerify.availW, PptxVerify.EMU_PER_INCH, exShapeC7,
      PptxVerify.DEFAULT_MARGIN_LEFT, PptxVerify.DEFAULT_MARGIN_RIGHT]
  have h4 : 0 < PptxVerify.availH exShapeC7 := by
    norm_num [PptxVerify.availH, PptxVerify.EMU_PER_INCH, exShapeC7,
      PptxVerify.DEFAULT_MARGIN_TOP, PptxVerify.DEFAULT_MARGIN_BOTTOM]
  exact ⟨⟨rfl, h2, h3, h4⟩, overflow_flag exShapeC7 rfl h2 h3 h4⟩

namespace PptxVerify

lemma checkPair_spec (i : ℕ) (a : VShape) (j : ℕ) (b : VShape)
    (hta : pyStrip (shapeText a) ≠ []) (htb : pyStrip (shapeText b) ≠ []) :
    checkPair i a j b
      = if 0 < interW a b ∧ 0 < interH a b ∧ 0.10 ≤ min (interW a b) (interH a b)
        then some ⟨i, j, interW a b, interH a b,
          classifySeverity (min (interW a b) (interH a b))⟩
        else none := by
  have hab : ¬ (pyStrip (shapeText a) = [] ∨ pyStrip (shapeText b) = []) := by
    push_neg
    exact ⟨hta, htb⟩
  simp only [checkPair, if_neg hab]
  by_cases h1 : interW a b ≤ 0 ∨ interH a b ≤ 0
  · have hD : ¬ (0 < interW a b ∧ 0 < interH a b
        ∧ 0.10 ≤ min (interW a b) (interH a b)) := by
      rintro ⟨hw', hh', _⟩
      rcases h1 with h | h <;> linarith
    rw [if_pos h1, if_neg hD]
  · push_neg at h1
    have h1' : ¬ (interW a b ≤ 0 ∨ interH a b ≤ 0) :=
      not_or.mpr ⟨not_le.mpr h1.1, not_le.mpr h1.2⟩
    by_cases h2 : min (interW a b) (interH a b) < 0.10
    · have hD : ¬ (0 < interW a b ∧ 0 < interH a b
          ∧ 0.10 ≤ min (interW a b) (interH a b)) := by
        rintro ⟨_, _, hmin⟩
        exact absurd hmin (not_le.mpr h2)
      rw [if_neg h1', if_pos h2, if_neg hD]
    · have hD : 0 < interW a b ∧ 0 < interH a b
          ∧ 0.10 ≤ min (interW a b) (interH a b) := ⟨h1.1, h1.2, not_lt.mp h2⟩
      rw [if_neg h1', if_neg h2, if_pos hD]

lemma checkPair_inds {i : ℕ} {a : VShape} {j : ℕ} {b : VShape} {o : ShapeOverlap}
    (h : checkPair i a j b = some o) : o.shape_a_index = i ∧ o.shape_b_index = j := by
  simp only [checkPair] at h
  split_ifs at h
  all_goals cases h
  exact ⟨rfl, rfl⟩

lemma mem_detect_overlaps {shapes : List VShape} {o : ShapeOverlap} :
    o ∈ detect_overlaps shapes ↔
      ∃ i j a b, i < j ∧ shapes[i]? = some a ∧ shapes[j]? = some b
        ∧ checkPair i a j b = some o := by
  simp only [detect_overlaps, List.mem_flatMap, List.mem_filterMap]
  constructor
  · rintro ⟨⟨i, a⟩, hia, ⟨j, b⟩, hjb, hcv⟩
    by_cases hlt : i < j
    · rw [if_pos hlt] at hcv
      exact ⟨i, j, a, b, hlt, List.mk_mem_enum_iff_getElem?.mp hia,
        List.mk_mem_enum_iff_getElem?.mp hjb, hcv⟩
    · rw [if_neg hlt] at hcv
      cases hcv
  · rintro ⟨i, j, a, b, hlt, ha, hb, hcp⟩
    refine ⟨(i, a), List.mk_mem_enum_iff_getElem?.mpr ha,
      (j, b), List.mk_mem_enum_iff_getElem?.mpr hb, ?_⟩
    rw [if_pos hlt]
    exact hcp

end PptxVerify

/-- Shape A of the C6 overlap scenario. -/
def shapeA6 : PptxVerify.VShape :=
  { left := 914400, top := 914400, width := 2743200, height := 457200
    has_text_frame := true
    paras := [⟨['x'], 14, false, "Arial".toList, 1.2⟩]
    margin_top := none, margin_bottom := none
    margin_left := none, margin_right := none
    word_wrap := none }

/-- Shape B of the C6 overlap scenario. -/
def shapeB6 : PptxVerify.VShape :=
  { left := 1828800, top := 1097280, width := 2743200, height := 457200
    has_text_frame := true
    paras := [⟨['y'], 14, false, "Arial".toList, 1.2⟩]
    margin_top := none, margin_bottom := none
    margin_left := none, margin_right := none
    word_wrap := none }

/-- C6: for every index pair `i < j` of shapes on a slide, both with
non-empty (stripped) text, `detect_overlaps` reports the pair exactly
when the bounding-box intersection has positive width and height and its
minimum dimension is at least 0.10 inch, classifying it SEVERE above
0.5 inch, MODERATE above 0.2 inch, else MINOR; in particular the
1.0/1.0/3.0/0.5 and 2.0/1.2/3.0/0.5 inch shapes intersect in a 2.0 by
0.3 inch box and are reported MODERATE. -/
theorem overlap_rule (shapes : List PptxVerify.VShape) (i j : ℕ)
    (a b : PptxVerify.VShape)
    (hij : i < j)
    (ha : shapes[i]? = some a) (hb : shapes[j]? = some b)
    (hta : pyStrip (PptxVerify.shapeText a) ≠ [])
    (htb : pyStrip (PptxVerify.shapeText b) ≠ []) :
    ((∃ o ∈ PptxVerify.detect_overlaps shapes,
        o.shape_a_index = i ∧ o.shape_b_index = j)
      ↔ 0 < PptxVerify.interW a b ∧ 0 < PptxVerify.interH a b
          ∧ 0.10 ≤ min (PptxVerify.interW a b) (PptxVerify.interH a b))
    ∧ (∀ o ∈ PptxVerify.detect_overlaps shapes,
        o.shape_a_index = i → o.shape_b_index = j →
        o = ⟨i, j, PptxVerify.interW a b, PptxVerify.interH a b,
          PptxVerify.classifySeverity
            (min (PptxVerify.interW a b) (PptxVerify.interH a b))⟩)
    ∧ PptxVerify.detect_overlaps [shapeA6, shapeB6]
        = [⟨0, 1, 2, 0.3, .moderate⟩] := by
  have key : ∀ o ∈ PptxVerify.detect_overlaps shapes,
      o.shape_a_index = i → o.shape_b_index = j →
      PptxVerify.checkPair i a j b = some o := by
    intro o ho hoi hoj
    obtain ⟨i', j', a', b', hlt, ha', hb', hcp⟩ :=
      PptxVerify.mem_detect_overlaps.mp ho
    obtain ⟨hii, hjj⟩ := PptxVerify.checkPair_inds hcp
    subst hoi hoj
    subst hii hjj
    rw [ha'] at ha
    rw [hb'] at hb
    cases ha
    cases hb
    exact hcp
  refine ⟨⟨?_, ?_⟩, ?_, ?_⟩
  · rintro ⟨o, ho, hoi, hoj⟩
    have hcp := key o ho hoi hoj
    rw [PptxVerify.checkPair_spec i a j b hta htb] at hcp
    split_ifs at hcp with hD
    exact hD
  · intro hD
    refine ⟨⟨i, j, PptxVerify.interW a b, PptxVerify.interH a b,
      PptxVerify.classifySeverity
        (min (PptxVerify.interW a b) (PptxVerify.interH a b))⟩, ?_, rfl, rfl⟩
    rw [PptxVerify.mem_detect_overlaps]
    refine ⟨i, j, a, b, hij, ha, hb, ?_⟩
    rw [PptxVerify.checkPair_spec i a j b hta htb, if_pos hD]
  · intro o ho hoi hoj
    have hcp := key o ho hoi hoj
    rw [PptxVerify.checkPair_spec i a j b hta htb] at hcp
    split_ifs at hcp with hD
    cases hcp
    rfl
  · show PptxVerify.detect_overlaps [shapeA6, shapeB6] = _
    have hA : pyStrip (PptxVerify.shapeText shapeA6) = ['x'] := by decide
    have hB : pyStrip (PptxVerify.shapeText shapeB6) = ['y'] := by decide
    simp only [PptxVerify.detect_overlaps, List.enum, List.enumFrom,
      List.flatMap_cons, List.flatMap_nil, List.filterMap_cons, List.filterMap_nil]
    norm_num
    rw [PptxVerify.checkPair_spec 0 shapeA6 1 shapeB6 (by rw [hA]; simp)
      (by rw [hB]; simp)]
    have hw' : PptxVerify.interW shapeA6 shapeB6 = 2 := by
      simp only [PptxVerify.interW, PptxVerify.bboxRight, PptxVerify.bboxLeft,
        PptxVerify.EMU_PER_INCH, shapeA6, shapeB6]
      norm_num
    have hh' : PptxVerify.interH shapeA6 shapeB6 = 0.3 := by
      simp only [PptxVerify.interH, PptxVerify.bboxBot, PptxVerify.bboxTop,
        PptxVerify.EMU_PER_INCH, shapeA6, shapeB6]
      norm_num
    rw [hw', hh']
    norm_num
    simp only [PptxVerify.classifySeverity]
    norm_num


/-- Witness for `overlap_rule` at the concrete scenario shapes. -/
theorem overlap_rule_witness :
    (0 : ℕ) < 1
    ∧ pyStrip (PptxVerify.shapeText shapeA6) ≠ []
    ∧ ((∃ o ∈ PptxVerify.detect_overlaps [shapeA6, shapeB6],
          o.shape_a_index = 0 ∧ o.shape_b_index = 1)
        ↔ 0 < PptxVerify.interW shapeA6 shapeB6
            ∧ 0 < PptxVerify.interH shapeA6 shapeB6
            ∧ 0.10 ≤ min (PptxVerify.interW shapeA6 shapeB6)
                (PptxVerify.interH shapeA6 shapeB6)) :=
  ⟨by norm_num, by decide,
    (overlap_rule [shapeA6, shapeB6] 0 1 shapeA6 shapeB6 (by norm_num) rfl rfl
      (by decide) (by decide)).1⟩

namespace Html2pptx

lemma pyInt_floor_bounds (q : ℚ) (hq : 0 ≤ q) :
    (pyInt q : ℚ) ≤ q ∧ q - 1 < (pyInt q : ℚ) := by
  simp only [pyInt, if_pos hq]
  exact ⟨Int.floor_le q, Int.sub_one_lt_floor q⟩

lemma foldl_min_ge {a : ℚ} : ∀ (l : List ℚ) (x : ℚ), a ≤ x → (∀ y ∈ l, a ≤ y) →
    a ≤ l.foldl min x := by
  intro l
  induction l with
  | nil => intro x hx _; exact hx
  | cons z zs ih =>
    intro x hx hall
    simp only [List.foldl_cons]
    exact ih (min x z) (le_min hx (hall z (List.mem_cons_self z zs)))
      (fun y hy => hall y (List.mem_cons_of_mem z hy))

lemma listMin_ge {l : List ℚ} {m a : ℚ} (h : listMin? l = some m)
    (hall : ∀ y ∈ l, a ≤ y) : a ≤ m := by
  cases l with
  | nil => cases h
  | cons x xs =>
    simp only [listMin?, Option.some.injEq] at h
    subst h
    exact foldl_min_ge xs x (hall x (List.mem_cons_self x xs))
      (fun y hy => hall y (List.mem_cons_of_mem x hy))

lemma contentStart_ge {shapes : List PShape} {cs : ℚ}
    (h : listMin? (contentTops shapes) = some cs) : 0.3 ≤ cs := by
  refine listMin_ge h ?_
  intro y hy
  simp only [contentTops, List.mem_map, List.mem_filter] at hy
  obtain ⟨s, ⟨_, hs⟩, rfl⟩ := hy
  exact of_decide_eq_true hs

lemma moveShape_frame (cs sc : ℚ) (s : PShape) :
    (moveShape cs sc s).left = s.left ∧ (moveShape cs sc s).width = s.width
      ∧ (moveShape cs sc s).height = s.height := by
  simp only [moveShape]
  split <;> exact ⟨rfl, rfl, rfl⟩

lemma moveShape_top (cs sc : ℚ) (s : PShape) (hcs : 0 < cs) (hsc : 0.40 ≤ sc) :
    (cs ≤ shapeTopIn s →
      cs + (shapeTopIn s - cs) * 0.40 - 1 / 914400 ≤ shapeTopIn (moveShape cs sc s))
    ∧ (shapeTopIn s < cs → (moveShape cs sc s).top = s.top) := by
  by_cases h : cs ≤ shapeTopIn s
  · refine ⟨fun _ => ?_, fun hlt => absurd h (not_le.mpr hlt)⟩
    have hrel : 0 ≤ shapeTopIn s - cs := sub_nonneg.mpr h
    have hq : 0 ≤ (cs + (shapeTopIn s - cs) * sc) * 914400 := by
      have : 0 ≤ (shapeTopIn s - cs) * sc := mul_nonneg hrel (by linarith)
      positivity
    have hb := (pyInt_floor_bounds _ hq).2
    have hmul : (shapeTopIn s - cs) * 0.40 ≤ (shapeTopIn s - cs) * sc :=
      mul_le_mul_of_nonneg_left hsc hrel
    have h2 : cs ≤ (s.top : ℚ) / 914400 := h
    have hms : shapeTopIn (moveShape cs sc s)
        = (pyInt ((cs + (shapeTopIn s - cs) * sc) * 914400) : ℚ) / 914400 := by
      simp only [moveShape, shapeTopIn]
      rw [if_pos h2]
    rw [hms, le_div_iff₀ (by norm_num : (0:ℚ) < 914400)]
    linarith [hb, hmul]
  · refine ⟨fun hle => absurd hle h, fun _ => ?_⟩
    simp only [moveShape, if_neg h]

lemma compressSlide_cases (ct : ℚ) (shapes : List PShape) :
    compressSlide ct shapes = shapes
    ∨ ∃ cs sc, listMin? (contentTops shapes) = some cs ∧ 0.40 ≤ sc
        ∧ compressSlide ct shapes = shapes.map (moveShape cs sc) := by
  simp only [compressSlide]
  split_ifs with h1
  · split
    next cs ce hmin hmax =>
      split_ifs with h2 h3 h4
      · exact Or.inr ⟨cs, _, hmin, le_of_lt h3.1, rfl⟩
      · exact Or.inr ⟨cs, 0.40, hmin, le_refl _, rfl⟩
      · exact Or.inl rfl
      · exact Or.inl rfl
    next h => exact Or.inl rfl
  · exact Or.inl rfl

end Html2pptx

/-- C3 (amended): the overflow-compression pass never changes a shape's
left, width or height or the shape count; a shape above `content_start`
keeps its top; and a shape at or below `content_start` ends with top at
least `content_start + (old_top - content_start) * 0.40` minus one EMU
(`1/914400` inch), the EMU slack being forced by the `int()` truncation
when the new top is stored. -/
theorem compression_frame (ct : ℚ) (shapes : List Html2pptx.PShape) (i : ℕ)
    (s s' : Html2pptx.PShape)
    (hs : shapes[i]? = some s)
    (hs' : (Html2pptx.compressSlide ct shapes)[i]? = some s') :
    (Html2pptx.compressSlide ct shapes).length = shapes.length
    ∧ s'.left = s.left ∧ s'.width = s.width ∧ s'.height = s.height
    ∧ (∀ cs, Html2pptx.listMin? (Html2pptx.contentTops shapes) = some cs →
        (cs ≤ Html2pptx.shapeTopIn s →
          cs + (Html2pptx.shapeTopIn s - cs) * 0.40 - 1 / 914400
            ≤ Html2pptx.shapeTopIn s')
        ∧ (Html2pptx.shapeTopIn s < cs → s'.top = s.top))
    ∧ (Html2pptx.listMin? (Html2pptx.contentTops shapes) = none → s'.top = s.top) := by
  rcases Html2pptx.compressSlide_cases ct shapes with hid | ⟨cs, sc, hmin, hsc, hmap⟩
  · rw [hid] at hs' ⊢
    rw [hs] at hs'
    cases hs'
    refine ⟨rfl, rfl, rfl, rfl, ?_, fun _ => rfl⟩
    intro cs hcs
    constructor
    · intro hle
      have hrel : 0 ≤ Html2pptx.shapeTopIn s - cs := sub_nonneg.mpr hle
      nlinarith [hrel]
    · intro _
      rfl
  · rw [hmap] at hs' ⊢
    rw [List.getElem?_map, hs] at hs'
    simp only [Option.map_some'] at hs'
    cases hs'
    obtain ⟨hl, hw, hh⟩ := Html2pptx.moveShape_frame cs sc s
    have hcs3 : (0.3 : ℚ) ≤ cs := Html2pptx.contentStart_ge hmin
    obtain ⟨hb1, hb2⟩ := Html2pptx.moveShape_top cs sc s (by linarith) hsc
    refine ⟨List.length_map _ _, hl, hw, hh, ?_, ?_⟩
    · intro cs' hcs'
      rw [hmin] at hcs'
      cases hcs'
      exact ⟨hb1, hb2⟩
    · intro hnone
      rw [hmin] at hnone
      cases hnone

/-- Slide for the C3 counterexample. -/
def exSlideC3 : List Html2pptx.PShape :=
  [⟨0, 274320, 0, 0⟩, ⟨0, 274321, 0, 9144000⟩]

/-- C3 counterexample: on this slide the pass runs with
`content_start = 0.3`, and the second shape's stored top `274320` EMU
(0.3 inch) falls strictly below
`content_start + (old_top - content_start) * 0.40`, so the claim's bound
fails as stated (by a sub-EMU amount introduced by `int()` truncation). -/
theorem compression_bound_cex :
    exSlideC3[1]? = some ⟨0, 274321, 0, 9144000⟩
    ∧ Html2pptx.listMin? (Html2pptx.contentTops exSlideC3) = some 0.3
    ∧ (Html2pptx.compressSlide 0 exSlideC3)[1]? = some ⟨0, 274320, 0, 9144000⟩
    ∧ Html2pptx.shapeTopIn (⟨0, 274320, 0, 9144000⟩ : Html2pptx.PShape)
        < 0.3 + (Html2pptx.shapeTopIn (⟨0, 274321, 0, 9144000⟩ : Html2pptx.PShape) - 0.3)
            * 0.40 := by
  have htops : Html2pptx.contentTops exSlideC3 = [0.3, 274321 / 914400] := by
    norm_num [Html2pptx.contentTops, Html2pptx.shapeTopIn, exSlideC3,
      List.filter_cons, decide_eq_true_eq]
  have hbots : Html2pptx.contentBots exSlideC3 = [0.3, 9418321 / 914400] := by
    norm_num [Html2pptx.contentBots, Html2pptx.shapeTopIn, Html2pptx.shapeBotIn, exSlideC3,
      List.filter_cons, decide_eq_true_eq]
  have hmin : Html2pptx.listMin? (Html2pptx.contentTops exSlideC3) = some 0.3 := by
    rw [htops]
    norm_num [Html2pptx.listMin?, min_def]
  have hmax : Html2pptx.listMax? (Html2pptx.contentBots exSlideC3)
      = some ((9418321 : ℚ) / 914400) := by
    rw [hbots]
    norm_num [Html2pptx.listMax?, max_def]
  have hab : exSlideC3.foldl (fun m s => max m (Html2pptx.shapeBotIn s)) 0
      = 9418321 / 914400 := by
    norm_num [exSlideC3, Html2pptx.shapeBotIn, max_def]
  have hm1 : Html2pptx.moveShape 0.3 (4777740 / 9144001) ⟨0, 274320, 0, 0⟩
      = ⟨0, 274320, 0, 0⟩ := by
    simp only [Html2pptx.moveShape, Html2pptx.shapeTopIn]
    rw [if_pos (by norm_num)]
    have hpy : Html2pptx.pyInt ((0.3 + (((274320 : ℤ) : ℚ) / 914400 - 0.3) * (4777740 / 9144001)) * 914400)
        = 274320 := by
      norm_num [Html2pptx.pyInt]
    rw [hpy]
  have hm2 : Html2pptx.moveShape 0.3 (4777740 / 9144001) ⟨0, 274321, 0, 9144000⟩
      = ⟨0, 274320, 0, 9144000⟩ := by
    simp only [Html2pptx.moveShape, Html2pptx.shapeTopIn]
    rw [if_pos (by norm_num)]
    have hpy : Html2pptx.pyInt ((0.3 + (((274321 : ℤ) : ℚ) / 914400 - 0.3) * (4777740 / 9144001)) * 914400)
        = 274320 := by
      norm_num [Html2pptx.pyInt]
    rw [hpy]
  have hscale : ((5.625 : ℚ) - 0.10 - 0.3) / (9418321 / 914400 - 0.3)
      = 4777740 / 9144001 := by
    norm_num
  have hcomp : Html2pptx.compressSlide 0 exSlideC3
      = [⟨0, 274320, 0, 0⟩, ⟨0, 274320, 0, 9144000⟩] := by
    simp only [Html2pptx.compressSlide, hab, hmin, hmax, AmpStories.SLIDE_HEIGHT]
    rw [if_pos (by norm_num)]
    rw [if_pos (by norm_num : (0 : ℚ) < 9418321 / 914400 - 0.3)]
    simp only [hscale]
    rw [if_pos (by constructor <;> norm_num)]
    simp only [exSlideC3, List.map_cons, List.map_nil, hm1, hm2]
  refine ⟨rfl, hmin, ?_, ?_⟩
  · rw [hcomp]
    rfl
  · simp only [Html2pptx.shapeTopIn]
    norm_num


/-- Witness for `compression_frame` on a slide the pass leaves alone. -/
theorem compression_frame_witness :
    ((Html2pptx.compressSlide 0 [⟨0, 0, 0, 0⟩])[0]?
        = some (⟨0, 0, 0, 0⟩ : Html2pptx.PShape))
    ∧ (Html2pptx.compressSlide 0 [(⟨0, 0, 0, 0⟩ : Html2pptx.PShape)]).length
        = [(⟨0, 0, 0, 0⟩ : Html2pptx.PShape)].length := by
  have h : (Html2pptx.compressSlide 0 [⟨0, 0, 0, 0⟩])[0]?
      = some (⟨0, 0, 0, 0⟩ : Html2pptx.PShape) := by
    have hid : Html2pptx.compressSlide 0 [(⟨0, 0, 0, 0⟩ : Html2pptx.PShape)]
        = [⟨0, 0, 0, 0⟩] := by
      simp only [Html2pptx.compressSlide, List.foldl_cons, List.foldl_nil,
        Html2pptx.shapeBotIn, AmpStories.SLIDE_HEIGHT]
      rw [if_neg (by norm_num)]
    rw [hid]
    rfl
  exact ⟨h, (compression_frame 0 [⟨0, 0, 0, 0⟩] 0 ⟨0, 0, 0, 0⟩ ⟨0, 0, 0, 0⟩ rfl h).1⟩

namespace AmpStories

lemma pyStrip_sublist_dropWhile (s : List Char) :
    List.Sublist (pyStrip s) (s.dropWhile isPySpace) := by
  unfold pyStrip
  have h2 := @List.dropWhile_sublist Char (s.dropWhile isPySpace).reverse isPySpace
  have h3 := h2.reverse
  rwa [List.reverse_reverse] at h3

lemma arialSum_le_of_sublist {s t : List Char} (h : List.Sublist s t) :
    (s.map arialWidth).sum ≤ (t.map arialWidth).sum := by
  refine List.Sublist.sum_le_sum (h.map arialWidth) ?_
  intro a ha
  obtain ⟨c, _, rfl⟩ := List.mem_map.mp ha
  exact le_of_lt (arialWidth_pos c)

lemma pyStrip_append_space {s : List Char} {c : Char} (hc : isPySpace c = true) :
    pyStrip (s ++ [c]) = pyStrip s := by
  unfold pyStrip
  rw [List.dropWhile_append]
  split
  · next h =>
    have hnil : s.dropWhile isPySpace = [] := by
      simpa [List.isEmpty_iff] using h
    simp [List.dropWhile_cons, hc, hnil]
  · next h =>
    rw [List.reverse_append]
    simp [List.dropWhile_cons, hc]

lemma pyStrip_append_nonspace {s : List Char} {c : Char} (hc : isPySpace c = false) :
    pyStrip (s ++ [c]) = s.dropWhile isPySpace ++ [c] := by
  unfold pyStrip
  rw [List.dropWhile_append]
  split
  · next h =>
    have hnil : s.dropWhile isPySpace = [] := by
      simpa [List.isEmpty_iff] using h
    simp [List.dropWhile_cons, hc, hnil]
  · next h =>
    rw [List.reverse_append]
    simp [List.dropWhile_cons, hc]

lemma splitNL_cons_of_ne {a : Char} (ha : ¬ a = '\n') (rest : List Char) :
    splitNL (a :: rest) = (a :: (splitNL rest).headI) :: (splitNL rest).tail := by
  rcases h : splitNL rest with _ | ⟨p, ps⟩
  · exact absurd h (splitNL_ne_nil rest)
  · simp [splitNL, if_neg ha, h]

lemma splitNL_append_newline (t : List Char) :
    splitNL (t ++ ['\n']) = splitNL t ++ [[]] := by
  induction t with
  | nil => rfl
  | cons a t' ih =>
    by_cases ha : a = '\n'
    · subst ha
      rw [List.cons_append]
      have h1 : splitNL ('\n' :: (t' ++ ['\n'])) = [] :: splitNL (t' ++ ['\n']) := by
        simp [splitNL]
      have h2 : splitNL ('\n' :: t') = [] :: splitNL t' := by
        simp [splitNL]
      rw [h1, ih, h2, List.cons_append]
    · obtain ⟨q, qs, hq⟩ : ∃ q qs, splitNL t' = q :: qs := by
        rcases h : splitNL t' with _ | ⟨q, qs⟩
        · exact absurd h (splitNL_ne_nil t')
        · exact ⟨q, qs, rfl⟩
      rw [List.cons_append, splitNL_cons_of_ne ha, ih, splitNL_cons_of_ne ha, hq]
      simp

/-- Append a character to the last piece of a (non-empty) split. -/
def appLast : List (List Char) → Char → List (List Char)
  | [], c => [[c]]
  | [p], c => [p ++ [c]]
  | p :: ps, c => p :: appLast ps c

lemma splitNL_append_char {c : Char} (hc : ¬ c = '\n') (t : List Char) :
    splitNL (t ++ [c]) = appLast (splitNL t) c := by
  induction t with
  | nil => simp [splitNL, if_neg hc, appLast]
  | cons a t' ih =>
    obtain ⟨q, qs, hq⟩ : ∃ q qs, splitNL t' = q :: qs := by
      rcases h : splitNL t' with _ | ⟨q, qs⟩
      · exact absurd h (splitNL_ne_nil t')
      · exact ⟨q, qs, rfl⟩
    by_cases ha : a = '\n'
    · subst ha
      rw [List.cons_append]
      have h1 : splitNL ('\n' :: (t' ++ [c])) = [] :: splitNL (t' ++ [c]) := by
        simp [splitNL]
      have h2 : splitNL ('\n' :: t') = [] :: splitNL t' := by
        simp [splitNL]
      rw [h1, ih, h2, hq]
      cases qs <;> rfl
    · rw [List.cons_append, splitNL_cons_of_ne ha, ih, splitNL_cons_of_ne ha, hq]
      cases qs <;> rfl

end AmpStories

namespace Html2pptx

open AmpStories

lemma estimate_text_width_pt_mono {s t : List Char} {fs : ℚ} (bold : Bool)
    (hfs : 0 ≤ fs) (h : (s.map arialWidth).sum ≤ (t.map arialWidth).sum) :
    estimate_text_width_pt s fs bold ≤ estimate_text_width_pt t fs bold := by
  simp only [estimate_text_width_pt]
  cases bold
  · simpa using mul_le_mul_of_nonneg_right h hfs
  · simp only [if_true]
    have h1 := mul_le_mul_of_nonneg_right h hfs
    have h2 : (0 : ℚ) ≤ ARIAL_BOLD_SCALE := by norm_num [ARIAL_BOLD_SCALE]
    simpa using mul_le_mul_of_nonneg_right h1 h2

lemma one_le_paragraph_lines {fs usable : ℚ} {bold : Bool} {para : List Char}
    (h : pyStrip para ≠ []) : 1 ≤ paragraph_lines fs usable bold para := by
  simp only [paragraph_lines, if_neg h]
  split
  · norm_num
  · have := two_le_cast_max ⌈estimate_text_width_pt (pyStrip para) fs bold / usable * 1.05⌉
    linarith

lemma paragraph_lines_mono (fs usable : ℚ) (bold : Bool) (para : List Char) (c : Char)
    (hu : 0 < usable) (hfs : 0 ≤ fs) :
    paragraph_lines fs usable bold para ≤ paragraph_lines fs usable bold (para ++ [c]) := by
  by_cases hc : isPySpace c
  · have heq : pyStrip (para ++ [c]) = pyStrip para := pyStrip_append_space hc
    simp only [paragraph_lines, heq]
    exact le_refl _
  · have heq : pyStrip (para ++ [c]) = para.dropWhile isPySpace ++ [c] :=
      pyStrip_append_nonspace (Bool.not_eq_true _ ▸ eq_false_of_ne_true hc)
    have hne : pyStrip (para ++ [c]) ≠ [] := by
      rw [heq]
      simp
    by_cases hsp : pyStrip para = []
    · rw [paragraph_lines, if_pos hsp]
      have := @one_le_paragraph_lines fs usable bold (para ++ [c]) hne
      linarith
    · have hsum : ((pyStrip para).map arialWidth).sum
          ≤ ((pyStrip (para ++ [c])).map arialWidth).sum := by
        rw [heq]
        have h1 : ((pyStrip para).map arialWidth).sum
            ≤ ((para.dropWhile isPySpace).map arialWidth).sum :=
          arialSum_le_of_sublist (pyStrip_sublist_dropWhile para)
        have h2 := arialWidth_pos c
        simp only [List.map_append, List.sum_append, List.map_cons, List.map_nil,
          List.sum_cons, List.sum_nil]
        linarith
      have hw := @estimate_text_width_pt_mono (pyStrip para)
        (pyStrip (para ++ [c])) fs bold hfs hsum
      rw [paragraph_lines, paragraph_lines, if_neg hsp, if_neg hne]
      by_cases h1 : estimate_text_width_pt (pyStrip (para ++ [c])) fs bold ≤ usable
      · rw [if_pos h1, if_pos (le_trans hw h1)]
      · rw [if_neg h1]
        by_cases h2 : estimate_text_width_pt (pyStrip para) fs bold ≤ usable
        · rw [if_pos h2]
          have := two_le_cast_max
            ⌈estimate_text_width_pt (pyStrip (para ++ [c])) fs bold / usable * 1.05⌉
          linarith
        · rw [if_neg h2]
          have hdiv : estimate_text_width_pt (pyStrip para) fs bold / usable * 1.05
              ≤ estimate_text_width_pt (pyStrip (para ++ [c])) fs bold / usable * 1.05 := by
            have hq := (div_le_div_iff_of_pos_right hu).mpr hw
            exact mul_le_mul_of_nonneg_right hq (by norm_num)
          have hceil := Int.ceil_mono hdiv
          have hmax : max 2 ⌈estimate_text_width_pt (pyStrip para) fs bold / usable * 1.05⌉
              ≤ max 2 ⌈estimate_text_width_pt (pyStrip (para ++ [c])) fs bold / usable * 1.05⌉ :=
            max_le_max (le_refl 2) hceil
          exact_mod_cast hmax

end Html2pptx

namespace Html2pptx

open AmpStories

lemma sum_paragraph_lines_appLast (fs usable : ℚ) (bold : Bool) (c : Char)
    (hu : 0 < usable) (hfs : 0 ≤ fs) :
    ∀ xs : List (List Char),
      (xs.map (paragraph_lines fs usable bold)).sum
        ≤ ((appLast xs c).map (paragraph_lines fs usable bold)).sum := by
  intro xs
  induction xs with
  | nil =>
    simp only [appLast, List.map_nil, List.sum_nil, List.map_cons, List.sum_cons]
    have := paragraph_lines_nonneg fs usable bold [c]
    linarith
  | cons p ps ih =>
    cases ps with
    | nil =>
      simp only [appLast, List.map_cons, List.map_nil, List.sum_cons, List.sum_nil]
      have := paragraph_lines_mono fs usable bold p c hu hfs
      linarith
    | cons q rs =>
      have happ : appLast (p :: q :: rs) c = p :: appLast (q :: rs) c := rfl
      rw [happ]
      simp only [List.map_cons, List.sum_cons]
      have ih' := ih
      simp only [List.map_cons, List.sum_cons] at ih'
      linarith

end Html2pptx

/-- C4: measurement monotonicity.  For every fixed nonnegative font size,
box width, nonnegative line spacing and bold flag, the converter's
`_estimate_text_height` is non-decreasing as the text grows by appending
one character. -/
theorem measure_monotone (t : List Char) (c : Char) (fs w ls : ℚ) (bold : Bool)
    (hfs : 0 ≤ fs) (hls : 0 ≤ ls) :
    Html2pptx.estimate_text_height t fs w ls bold
      ≤ Html2pptx.estimate_text_height (t ++ [c]) fs w ls bold := by
  have hu : 0 < Html2pptx.usable_width_pt w :=
    lt_of_lt_of_le (by norm_num) (Html2pptx.usable_width_pt_ge w)
  have hlh : 0 ≤ fs / 72.0 * ls :=
    mul_nonneg (div_nonneg hfs (by norm_num)) hls
  have hsum : ((splitNL t).map
        (Html2pptx.paragraph_lines fs (Html2pptx.usable_width_pt w) bold)).sum
      ≤ ((splitNL (t ++ [c])).map
        (Html2pptx.paragraph_lines fs (Html2pptx.usable_width_pt w) bold)).sum := by
    by_cases hc : c = '\n'
    · subst hc
      rw [splitNL_append_newline]
      simp only [List.map_append, List.sum_append, List.map_cons, List.map_nil,
        List.sum_cons, List.sum_nil]
      have := Html2pptx.paragraph_lines_nonneg fs (Html2pptx.usable_width_pt w) bold []
      linarith
    · rw [splitNL_append_char hc]
      exact Html2pptx.sum_paragraph_lines_appLast fs (Html2pptx.usable_width_pt w) bold c
        hu hfs (splitNL t)
  simp only [Html2pptx.estimate_text_height]
  have := mul_le_mul_of_nonneg_right hsum hlh
  linarith

/-- Witness for `measure_monotone` at a concrete input. -/
theorem measure_monotone_witness :
    (0 : ℚ) ≤ 14 ∧ (0 : ℚ) ≤ 1.2
    ∧ Html2pptx.estimate_text_height ['a'] 14 2 1.2 false
        ≤ Html2pptx.estimate_text_height (['a'] ++ ['b']) 14 2 1.2 false :=
  ⟨by norm_num, by norm_num,
    measure_monotone ['a'] 'b' 14 2 1.2 false (by norm_num) (by norm_num)⟩

namespace Html2pptx

lemma bsearch_inv (fits : ℕ → Bool) : ∀ (lo hi : ℕ),
    (lo = 0 ∨ fits lo = true) →
    (bsearch fits lo hi = 0 ∨ fits (bsearch fits lo hi) = true) := by
  intro lo hi
  induction lo, hi using bsearch.induct fits with
  | case1 lo hi h mid hfit ih =>
    intro _
    rw [bsearch, dif_pos h]
    simp only [hfit, if_true]
    exact ih (Or.inr hfit)
  | case2 lo hi h mid hfit ih =>
    intro hbase
    rw [bsearch, dif_pos h]
    simp only [hfit, Bool.false_eq_true, if_false]
    exact ih hbase
  | case3 lo hi h =>
    intro hbase
    rw [bsearch, dif_neg h]
    exact hbase

end Html2pptx

/-- C1 (amended): truncation safety.  The result of `_truncate_to_fit`
is non-empty whenever the input text is non-empty, and its predicted
height is at most `max_height` unless the result is the forced one-word
fallback (first word plus ellipsis), which is returned even when it
overflows the budget. -/
theorem truncate_safety (text : List Char) (fs w maxH : ℚ) (bold : Bool) :
    (text ≠ [] → Html2pptx.truncate_to_fit text fs w maxH bold ≠ [])
    ∧ (Html2pptx.estimate_text_height
          (Html2pptx.truncate_to_fit text fs w maxH bold) fs w 1.2 bold ≤ maxH
        ∨ Html2pptx.truncate_to_fit text fs w maxH bold
            = Html2pptx.wordCand (splitWords text) 1) := by
  simp only [Html2pptx.truncate_to_fit]
  split_ifs with h0 hlo
  · exact ⟨fun h => h, Or.inl h0⟩
  · refine ⟨fun _ => ?_, ?_⟩
    · simp [Html2pptx.paraCand]
    · rcases Html2pptx.bsearch_inv
        (fun k => decide (Html2pptx.estimate_text_height
          (Html2pptx.paraCand (splitNL text) k) fs w 1.2 bold ≤ maxH))
        0 (splitNL text).length (Or.inl rfl) with hz | hfit
      · rw [hz] at hlo
        exact absurd hlo (by norm_num)
      · exact Or.inl (of_decide_eq_true hfit)
  · refine ⟨fun _ => ?_, ?_⟩
    · simp [Html2pptx.wordCand]
    · rcases Html2pptx.bsearch_inv
        (fun k => decide (Html2pptx.estimate_text_height
          (Html2pptx.wordCand (splitWords text) k) fs w 1.2 bold ≤ maxH))
        0 (splitWords text).length (Or.inl rfl) with hz | hfit
      · rw [hz]
        exact Or.inr rfl
      · by_cases hz2 : Html2pptx.bsearch
            (fun k => decide (Html2pptx.estimate_text_height
              (Html2pptx.wordCand (splitWords text) k) fs w 1.2 bold ≤ maxH))
            0 (splitWords text).length = 0
        · rw [hz2]
          exact Or.inr rfl
        · rw [Nat.max_eq_left (Nat.one_le_iff_ne_zero.mpr hz2)]
          exact Or.inl (of_decide_eq_true hfit)

namespace Html2pptx

lemma bsearch_zero_one (f : ℕ → Bool) : bsearch f 0 1 = if f 1 then 1 else 0 := by
  rw [bsearch, dif_pos (by norm_num : (0:ℕ) < 1)]
  have hmid : ((0:ℕ) + 1 + 1) / 2 = 1 := rfl
  simp only [hmid]
  split_ifs with hf
  · rw [bsearch, dif_neg (lt_irrefl 1)]
  · rw [bsearch, dif_neg (lt_irrefl 0)]

end Html2pptx

/-- C1 counterexample: a single W at 20pt in a 2 inch box with a 0.01
inch height budget cannot fit even as one word, so `_truncate_to_fit`
returns the one-word fallback, whose predicted height exceeds the
budget — the claim as stated is false. -/
theorem truncate_safety_cex :
    Html2pptx.truncate_to_fit ['W'] 20 2 (1/100) false = ['W', '.', '.', '.']
    ∧ ¬ (Html2pptx.estimate_text_height
          (Html2pptx.truncate_to_fit ['W'] 20 2 (1/100) false) 20 2 1.2 false ≤ 1/100) := by
  have hus : Html2pptx.usable_width_pt 2 = 129.6 := by
    simp only [Html2pptx.usable_width_pt]
    norm_num
  have hW : AmpStories.arialWidth 'W' = 0.94 := rfl
  have hdot : AmpStories.arialWidth '.' = 0.28 := rfl
  have hwW : Html2pptx.estimate_text_width_pt ['W'] 20 false = 18.8 := by
    simp only [Html2pptx.estimate_text_width_pt, List.map_cons, List.map_nil,
      List.sum_cons, List.sum_nil, hW, Bool.false_eq_true, if_false]
    norm_num
  have hw3 : Html2pptx.estimate_text_width_pt ['.', '.', '.'] 20 false = 16.8 := by
    simp only [Html2pptx.estimate_text_width_pt, List.map_cons, List.map_nil,
      List.sum_cons, List.sum_nil, hdot, Bool.false_eq_true, if_false]
    norm_num
  have hwW3 : Html2pptx.estimate_text_width_pt ['W', '.', '.', '.'] 20 false = 35.6 := by
    simp only [Html2pptx.estimate_text_width_pt, List.map_cons, List.map_nil,
      List.sum_cons, List.sum_nil, hW, hdot, Bool.false_eq_true, if_false]
    norm_num
  have hplW : Html2pptx.paragraph_lines 20 (Html2pptx.usable_width_pt 2) false ['W'] = 1 := by
    simp only [Html2pptx.paragraph_lines]
    rw [show pyStrip ['W'] = ['W'] from rfl, if_neg (by simp), hwW, hus,
      if_pos (by norm_num)]
  have hpl3 : Html2pptx.paragraph_lines 20 (Html2pptx.usable_width_pt 2) false
      ['.', '.', '.'] = 1 := by
    simp only [Html2pptx.paragraph_lines]
    rw [show pyStrip ['.', '.', '.'] = ['.', '.', '.'] from rfl, if_neg (by simp), hw3, hus,
      if_pos (by norm_num)]
  have hplW3 : Html2pptx.paragraph_lines 20 (Html2pptx.usable_width_pt 2) false
      ['W', '.', '.', '.'] = 1 := by
    simp only [Html2pptx.paragraph_lines]
    rw [show pyStrip ['W', '.', '.', '.'] = ['W', '.', '.', '.'] from rfl,
      if_neg (by simp), hwW3, hus, if_pos (by norm_num)]
  have hA : Html2pptx.estimate_text_height ['W'] 20 2 1.2 false = 13/30 := by
    simp only [Html2pptx.estimate_text_height,
      show splitNL ['W'] = [['W']] from rfl,
      List.map_cons, List.map_nil, List.sum_cons, List.sum_nil, hplW]
    norm_num
  have hB : Html2pptx.estimate_text_height ['W', '\n', '.', '.', '.'] 20 2 1.2 false
      = 23/30 := by
    simp only [Html2pptx.estimate_text_height,
      show splitNL ['W', '\n', '.', '.', '.'] = [['W'], ['.', '.', '.']] from rfl,
      List.map_cons, List.map_nil, List.sum_cons, List.sum_nil, hplW, hpl3]
    norm_num
  have hC : Html2pptx.estimate_text_height ['W', '.', '.', '.'] 20 2 1.2 false = 13/30 := by
    simp only [Html2pptx.estimate_text_height,
      show splitNL ['W', '.', '.', '.'] = [['W', '.', '.', '.']] from rfl,
      List.map_cons, List.map_nil, List.sum_cons, List.sum_nil, hplW3]
    norm_num
  have htr : Html2pptx.truncate_to_fit ['W'] 20 2 (1/100) false = ['W', '.', '.', '.'] := by
    simp only [Html2pptx.truncate_to_fit]
    rw [if_neg (by rw [hA]; norm_num)]
    rw [show (splitNL ['W']).length = 1 from rfl]
    rw [Html2pptx.bsearch_zero_one]
    rw [show Html2pptx.paraCand (splitNL ['W']) 1 = ['W', '\n', '.', '.', '.'] from rfl]
    rw [hB, decide_eq_false (by norm_num : ¬ ((23:ℚ)/30 ≤ 1/100))]
    simp only [Bool.false_eq_true, if_false, lt_irrefl]
    rw [show (splitWords ['W']).length = 1 from rfl]
    rw [Html2pptx.bsearch_zero_one]
    rw [show Html2pptx.wordCand (splitWords ['W']) 1 = ['W', '.', '.', '.'] from rfl]
    rw [hC, decide_eq_false (by norm_num : ¬ ((13:ℚ)/30 ≤ 1/100))]
    simp only [Bool.false_eq_true, if_false]
    rfl
  refine ⟨htr, ?_⟩
  rw [htr, hC]
  norm_num


/-- Witness for `truncate_safety` at a concrete input. -/
theorem truncate_safety_witness :
    (['W'] ≠ ([] : List Char) →
      Html2pptx.truncate_to_fit ['W'] 14 3 2 false ≠ [])
    ∧ (Html2pptx.estimate_text_height
          (Html2pptx.truncate_to_fit ['W'] 14 3 2 false) 14 3 1.2 false ≤ 2
        ∨ Html2pptx.truncate_to_fit ['W'] 14 3 2 false
            = Html2pptx.wordCand (splitWords ['W']) 1) :=
  truncate_safety ['W'] 14 3 2 false

namespace AmpStories

lemma intercalate_single (x : List Char) : List.intercalate ['\n'] [x] = x := by
  simp [List.intercalate, List.intersperse]

lemma intercalate_nl_cons (x y : List Char) (zs : List (List Char)) :
    List.intercalate ['\n'] (x :: y :: zs)
      = x ++ '\n' :: List.intercalate ['\n'] (y :: zs) := by
  simp [List.intercalate, List.intersperse]

lemma splitNL_append_cons {p : List Char} (hp : '\n' ∉ p) (t : List Char) :
    splitNL (p ++ '\n' :: t) = p :: splitNL t := by
  induction p with
  | nil =>
    simp [splitNL]
  | cons a p' ih =>
    have ha : ¬ a = '\n' := fun h => hp (h ▸ List.mem_cons_self a p')
    have hp' : '\n' ∉ p' := fun h => hp (List.mem_cons_of_mem a h)
    rw [List.cons_append, splitNL_cons_of_ne ha, ih hp']
    simp

lemma splitNL_intercalate : ∀ ps : List (List Char), ps ≠ [] →
    (∀ p ∈ ps, '\n' ∉ p) →
    splitNL (List.intercalate ['\n'] ps) = ps := by
  intro ps
  induction ps with
  | nil => intro h; exact absurd rfl h
  | cons p qs ih =>
    intro _ hnl
    cases qs with
    | nil =>
      rw [intercalate_single]
      exact splitNL_no_newline (hnl p (List.mem_cons_self p []))
    | cons q rs =>
      rw [intercalate_nl_cons, splitNL_append_cons (hnl p (List.mem_cons_self p _)),
        ih (by simp) (fun r hr => hnl r (List.mem_cons_of_mem p hr))]

end AmpStories

namespace PptxVerify

open AmpStories

lemma pv_width_eq_conv {t : List Char} {fs : ℚ} {b : Bool} {fname : List Char}
    (ht : t ≠ []) (hmono : isMonospaceName fname = false) :
    estimate_text_width_pt t fs b fname = Html2pptx.estimate_text_width_pt t fs b := by
  simp only [estimate_text_width_pt, if_neg ht, hmono, Bool.false_eq_true, if_false,
    Html2pptx.estimate_text_width_pt]

lemma vparaHeight_le_conv (pt : List Char) (fs : ℚ) (b : Bool) (fname : List Char)
    (avail_w : ℚ) (hfs : 0 ≤ fs) (hmono : isMonospaceName fname = false) :
    vparaHeight avail_w ⟨pt, fs, b, fname, 1.2⟩
      ≤ Html2pptx.paragraph_lines fs (avail_w * 72.0) b pt * (fs / 72.0 * 1.2) := by
  have hlh : (0 : ℚ) ≤ fs / 72.0 * 1.2 := by positivity
  simp only [vparaHeight, Html2pptx.paragraph_lines]
  by_cases hsp : pyStrip pt = []
  · rw [if_pos hsp, if_pos hsp]
  · rw [if_neg hsp, if_neg hsp, pv_width_eq_conv hsp hmono]
    by_cases hfit : Html2pptx.estimate_text_width_pt (pyStrip pt) fs b ≤ avail_w * 72.0
    · rw [if_pos hfit, if_pos hfit]
      push_cast
      linarith
    · rw [if_neg hfit, if_neg hfit]
      have hle : (⌈Html2pptx.estimate_text_width_pt (pyStrip pt) fs b
            / (avail_w * 72.0) * 1.05⌉ : ℤ)
          ≤ max 2 ⌈Html2pptx.estimate_text_width_pt (pyStrip pt) fs b
            / (avail_w * 72.0) * 1.05⌉ := le_max_right _ _
      have hle' : ((⌈Html2pptx.estimate_text_width_pt (pyStrip pt) fs b
            / (avail_w * 72.0) * 1.05⌉ : ℤ) : ℚ)
          ≤ ((max 2 ⌈Html2pptx.estimate_text_width_pt (pyStrip pt) fs b
            / (avail_w * 72.0) * 1.05⌉ : ℤ) : ℚ) := by exact_mod_cast hle
      exact mul_le_mul_of_nonneg_right hle' hlh

end PptxVerify

/-- C2 (amended): audit self-consistency between generator and verifier.
A text shape with default margins, word wrap on, uniform runs in a
non-monospace (Arial-class) font, and stored height exactly equal to the
converter's `_estimate_text_height` prediction is never flagged by
`verify_shape`, provided the shape is at least 0.7 inch wide, so that
the converter's 36pt usable-width floor is not engaged. -/
theorem audit_self_consistency (s : PptxVerify.VShape) (fs : ℚ) (b : Bool)
    (fname : List Char)
    (htf : s.has_text_frame = true)
    (hmt : s.margin_top = none) (hmb : s.margin_bottom = none)
    (hml : s.margin_left = none) (hmr : s.margin_right = none)
    (hww : s.word_wrap = some true)
    (hps : ∀ p ∈ s.paras, p = ⟨p.text, fs, b, fname, 1.2⟩ ∧ '\n' ∉ p.text)
    (hmono : PptxVerify.isMonospaceName fname = false)
    (hfs : 0 ≤ fs)
    (hw7 : 0.7 ≤ (s.width : ℚ) / PptxVerify.EMU_PER_INCH)
    (hh : (s.height : ℚ) / PptxVerify.EMU_PER_INCH
        = Html2pptx.estimate_text_height (PptxVerify.tfText s) fs
            ((s.width : ℚ) / PptxVerify.EMU_PER_INCH) 1.2 b) :
    PptxVerify.verify_shape s = none := by
  by_cases hsp : pyStrip (PptxVerify.tfText s) = []
  · simp only [PptxVerify.verify_shape, htf, hsp, if_pos, not_true, Bool.not_true,
      if_true, Bool.false_eq_true, if_false, ite_self]
  · -- the shape has visible text
    have hparas_ne : s.paras ≠ [] := by
      intro hnil
      apply hsp
      simp [PptxVerify.tfText, hnil, List.intercalate, AmpStories.pyStrip]
    have havw : PptxVerify.availW s
        = (s.width : ℚ) / PptxVerify.EMU_PER_INCH - 0.20 := by
      simp only [PptxVerify.availW, hml, hmr, Option.getD_some, Option.getD]
      norm_num [PptxVerify.EMU_PER_INCH, PptxVerify.DEFAULT_MARGIN_LEFT,
        PptxVerify.DEFAULT_MARGIN_RIGHT]
      ring
    have havh : PptxVerify.availH s
        = (s.height : ℚ) / PptxVerify.EMU_PER_INCH - 0.10 := by
      simp only [PptxVerify.availH, hmt, hmb, Option.getD]
      norm_num [PptxVerify.EMU_PER_INCH, PptxVerify.DEFAULT_MARGIN_TOP,
        PptxVerify.DEFAULT_MARGIN_BOTTOM]
      ring
    have husable : Html2pptx.usable_width_pt ((s.width : ℚ) / PptxVerify.EMU_PER_INCH)
        = PptxVerify.availW s * 72.0 := by
      rw [havw]
      simp only [Html2pptx.usable_width_pt]
      rw [if_neg (by linarith)]
    have hsplit : splitNL (PptxVerify.tfText s) = s.paras.map PptxVerify.VPara.text := by
      refine splitNL_intercalate _ ?_ ?_
      · simpa using hparas_ne
      · intro p hp
        obtain ⟨q, hq, rfl⟩ := List.mem_map.mp hp
        exact (hps q hq).2
    -- the verifier height is bounded by the converter prediction minus the margin
    have hneed : PptxVerify.neededH s ≤ PptxVerify.availH s := by
      have h1 : PptxVerify.neededH s
          = (s.paras.map (PptxVerify.vparaHeight (PptxVerify.availW s))).sum := by
        simp only [PptxVerify.neededH, hww]
        rw [if_neg (by simp)]
        rfl
      have h2 : (s.paras.map (PptxVerify.vparaHeight (PptxVerify.availW s))).sum
          ≤ (s.paras.map (fun p => Html2pptx.paragraph_lines fs
              (PptxVerify.availW s * 72.0) b p.text * (fs / 72.0 * 1.2))).sum := by
        apply List.sum_le_sum
        intro p hp
        have hpeq := (hps p hp).1
        calc PptxVerify.vparaHeight (PptxVerify.availW s) p
            = PptxVerify.vparaHeight (PptxVerify.availW s)
                ⟨p.text, fs, b, fname, 1.2⟩ := by rw [← hpeq]
          _ ≤ _ := PptxVerify.vparaHeight_le_conv p.text fs b fname
                (PptxVerify.availW s) hfs hmono
      have h3 : (s.paras.map (fun p => Html2pptx.paragraph_lines fs
              (PptxVerify.availW s * 72.0) b p.text * (fs / 72.0 * 1.2))).sum
          = ((s.paras.map PptxVerify.VPara.text).map
              (Html2pptx.paragraph_lines fs (PptxVerify.availW s * 72.0) b)).sum
            * (fs / 72.0 * 1.2) := by
        rw [List.sum_map_mul_right, List.map_map]
        rfl
      have h4 : Html2pptx.estimate_text_height (PptxVerify.tfText s) fs
            ((s.width : ℚ) / PptxVerify.EMU_PER_INCH) 1.2 b
          = ((s.paras.map PptxVerify.VPara.text).map
              (Html2pptx.paragraph_lines fs (PptxVerify.availW s * 72.0) b)).sum
            * (fs / 72.0 * 1.2) + 0.10 := by
        simp only [Html2pptx.estimate_text_height, husable, hsplit]
      rw [havh, hh, h4, h1]
      linarith [h2, h3.le, h3.ge]
    have hw0 : ¬ (PptxVerify.availW s ≤ 0 ∨ PptxVerify.availH s ≤ 0)
        ∨ (PptxVerify.availW s ≤ 0 ∨ PptxVerify.availH s ≤ 0) := (em _).symm
    simp only [PptxVerify.verify_shape, htf, hsp, not_true, Bool.not_true,
      Bool.false_eq_true, if_false, if_true, ite_true, ite_false]
    split_ifs with hdeg hflag
    · rfl
    · exfalso
      have : PptxVerify.neededH s - PptxVerify.availH s ≤ 0 := by linarith [hneed]
      linarith [hflag.2]
    · rfl

/-- Narrow shape for the C2 counterexample: 0.5 inch wide, ten W
characters at 20pt, stored height exactly the converter's prediction. -/
def exShapeC2 : PptxVerify.VShape :=
  { left := 0, top := 0, width := 457200, height := 1920240
    has_text_frame := true
    paras := [⟨List.replicate 10 'W', 20, false, "Arial".toList, 1.2⟩]
    margin_top := none, margin_bottom := none
    margin_left := none, margin_right := none
    word_wrap := some true }

/-- C2 counterexample: a 0.5 inch wide shape sized exactly to the
converter's prediction is still flagged, because below 0.7 inch the
converter measures wrapping against its 36pt floor while the verifier
uses the true (smaller) available width. -/
theorem audit_self_consistency_cex :
    (exShapeC2.height : ℚ) / PptxVerify.EMU_PER_INCH
        = Html2pptx.estimate_text_height (PptxVerify.tfText exShapeC2) 20
            ((exShapeC2.width : ℚ) / PptxVerify.EMU_PER_INCH) 1.2 false
    ∧ PptxVerify.verify_shape exShapeC2 ≠ none := by
  have htext : PptxVerify.tfText exShapeC2 = List.replicate 10 'W' := rfl
  have hW : AmpStories.arialWidth 'W' = 0.94 := rfl
  have hsum : ((List.replicate 10 'W').map AmpStories.arialWidth).sum = (9.4 : ℚ) := by
    rw [List.map_replicate, hW, List.sum_replicate]
    norm_num
  have hstrip : pyStrip (List.replicate 10 'W') = List.replicate 10 'W' := rfl
  have hsne : (List.replicate 10 'W' : List Char) ≠ [] := by simp
  have hcw : Html2pptx.estimate_text_width_pt (List.replicate 10 'W') 20 false = 188 := by
    simp only [Html2pptx.estimate_text_width_pt, hsum, Bool.false_eq_true, if_false]
    norm_num
  have hwq : ((exShapeC2.width : ℤ) : ℚ) / PptxVerify.EMU_PER_INCH = 0.5 := by
    norm_num [exShapeC2, PptxVerify.EMU_PER_INCH]
  have husable : Html2pptx.usable_width_pt ((exShapeC2.width : ℚ) / PptxVerify.EMU_PER_INCH)
      = 36.0 := by
    rw [hwq]
    simp only [Html2pptx.usable_width_pt]
    rw [if_pos (by norm_num)]
  have hceilc : (⌈(188 : ℚ) / 36.0 * 1.05⌉ : ℤ) = 6 := by
    rw [Int.ceil_eq_iff]
    constructor <;> norm_num
  have hpl : Html2pptx.paragraph_lines 20
      (Html2pptx.usable_width_pt ((exShapeC2.width : ℚ) / PptxVerify.EMU_PER_INCH)) false
      (List.replicate 10 'W') = 6 := by
    simp only [Html2pptx.paragraph_lines, hstrip, hcw, husable]
    rw [if_neg (by simp), if_neg (by norm_num), hceilc]
    norm_num
  have hpred : Html2pptx.estimate_text_height (PptxVerify.tfText exShapeC2) 20
      ((exShapeC2.width : ℚ) / PptxVerify.EMU_PER_INCH) 1.2 false = 2.1 := by
    rw [htext]
    simp only [Html2pptx.estimate_text_height,
      show splitNL (List.replicate 10 'W') = [List.replicate 10 'W'] from rfl,
      List.map_cons, List.map_nil, List.sum_cons, List.sum_nil, hpl]
    norm_num
  refine ⟨?_, ?_⟩
  · rw [hpred]
    norm_num [exShapeC2, PptxVerify.EMU_PER_INCH]
  · have havw : PptxVerify.availW exShapeC2 = 0.3 := by
      norm_num [PptxVerify.availW, exShapeC2, PptxVerify.EMU_PER_INCH,
        PptxVerify.DEFAULT_MARGIN_LEFT, PptxVerify.DEFAULT_MARGIN_RIGHT]
    have havh : PptxVerify.availH exShapeC2 = 2 := by
      norm_num [PptxVerify.availH, exShapeC2, PptxVerify.EMU_PER_INCH,
        PptxVerify.DEFAULT_MARGIN_TOP, PptxVerify.DEFAULT_MARGIN_BOTTOM]
    have hpw : PptxVerify.estimate_text_width_pt (List.replicate 10 'W') 20 false
        ("Arial".toList) = 188 := by
      rw [PptxVerify.pv_width_eq_conv hsne (by decide)]
      exact hcw
    have hceilv : (⌈(188 : ℚ) / (0.3 * 72.0) * 1.05⌉ : ℤ) = 10 := by
      rw [Int.ceil_eq_iff]
      constructor <;> norm_num
    have hvh : PptxVerify.vparaHeight 0.3
        ⟨List.replicate 10 'W', 20, false, "Arial".toList, 1.2⟩ = 10 / 3 := by
      simp only [PptxVerify.vparaHeight, hstrip]
      rw [if_neg (by simp), hpw, if_neg (by norm_num), hceilv]
      norm_num
    have hneed : PptxVerify.neededH exShapeC2 = 10 / 3 := by
      simp only [PptxVerify.neededH]
      rw [if_neg (by simp [exShapeC2])]
      show (PptxVerify.estimate_shape_text_height exShapeC2.paras
        (PptxVerify.availW exShapeC2)).total_height = 10 / 3
      rw [havw]
      show ((exShapeC2.paras.map (PptxVerify.vparaHeight 0.3)).sum = 10 / 3)
      simp only [exShapeC2, List.map_cons, List.map_nil, List.sum_cons, List.sum_nil, hvh]
      norm_num
    have hne : pyStrip (PptxVerify.tfText exShapeC2) ≠ [] := by
      rw [htext, hstrip]
      exact hsne
    simp only [PptxVerify.verify_shape, hne, not_true, Bool.not_true, Bool.false_eq_true,
      if_false, if_true, ite_true, ite_false,
      show exShapeC2.has_text_frame = true from rfl]
    rw [if_neg (by rw [havw, havh]; push_neg; constructor <;> norm_num)]
    rw [if_pos (by rw [hneed, havh]; constructor <;> norm_num)]
    simp

/-- Well-sized shape for the C2 witness: 1.0 inch wide, text Hi at 20pt,
stored height exactly the converter's prediction. -/
def exShapeW2 : PptxVerify.VShape :=
  { left := 0, top := 0, width := 914400, height := 396240
    has_text_frame := true
    paras := [⟨['H', 'i'], 20, false, "Arial".toList, 1.2⟩]
    margin_top := none, margin_bottom := none
    margin_left := none, margin_right := none
    word_wrap := some true }

/-- Witness for `audit_self_consistency` at a concrete 1 inch shape. -/
theorem audit_self_consistency_witness :
    0.7 ≤ (exShapeW2.width : ℚ) / PptxVerify.EMU_PER_INCH
    ∧ (exShapeW2.height : ℚ) / PptxVerify.EMU_PER_INCH
        = Html2pptx.estimate_text_height (PptxVerify.tfText exShapeW2) 20
            ((exShapeW2.width : ℚ) / PptxVerify.EMU_PER_INCH) 1.2 false
    ∧ PptxVerify.verify_shape exShapeW2 = none := by
  have hH : AmpStories.arialWidth 'H' = 0.72 := rfl
  have hi : AmpStories.arialWidth 'i' = 0.22 := rfl
  have hwq : ((exShapeW2.width : ℤ) : ℚ) / PptxVerify.EMU_PER_INCH = 1 := by
    norm_num [exShapeW2, PptxVerify.EMU_PER_INCH]
  have hcw : Html2pptx.estimate_text_width_pt ['H', 'i'] 20 false = 18.8 := by
    simp only [Html2pptx.estimate_text_width_pt, List.map_cons, List.map_nil,
      List.sum_cons, List.sum_nil, hH, hi, Bool.false_eq_true, if_false]
    norm_num
  have husable : Html2pptx.usable_width_pt
      ((exShapeW2.width : ℚ) / PptxVerify.EMU_PER_INCH) = 57.6 := by
    rw [hwq]
    simp only [Html2pptx.usable_width_pt]
    rw [if_neg (by norm_num)]
    norm_num
  have hpl : Html2pptx.paragraph_lines 20
      (Html2pptx.usable_width_pt ((exShapeW2.width : ℚ) / PptxVerify.EMU_PER_INCH)) false
      ['H', 'i'] = 1 := by
    simp only [Html2pptx.paragraph_lines, show pyStrip ['H', 'i'] = ['H', 'i'] from rfl,
      hcw, husable]
    rw [if_neg (by simp), if_pos (by norm_num)]
  have hh : (exShapeW2.height : ℚ) / PptxVerify.EMU_PER_INCH
      = Html2pptx.estimate_text_height (PptxVerify.tfText exShapeW2) 20
          ((exShapeW2.width : ℚ) / PptxVerify.EMU_PER_INCH) 1.2 false := by
    rw [show PptxVerify.tfText exShapeW2 = ['H', 'i'] from rfl]
    simp only [Html2pptx.estimate_text_height,
      show splitNL ['H', 'i'] = [['H', 'i']] from rfl,
      List.map_cons, List.map_nil, List.sum_cons, List.sum_nil, hpl]
    norm_num [exShapeW2, PptxVerify.EMU_PER_INCH]
  refine ⟨by norm_num [exShapeW2, PptxVerify.EMU_PER_INCH], hh, ?_⟩
  refine audit_self_consistency exShapeW2 20 false ("Arial".toList) rfl rfl rfl rfl rfl rfl
    ?_ (by decide) (by norm_num) (by norm_num [exShapeW2, PptxVerify.EMU_PER_INCH]) hh
  intro p hp
  have hp' : p = ⟨['H', 'i'], 20, false, "Arial".toList, 1.2⟩ := List.mem_singleton.mp hp
  subst hp'
  exact ⟨rfl, by decide⟩
